import Mathlib

/-!
Verification development for graph.js (expression compiler/evaluator and
function-analysis engine of the graphing calculator).

The JavaScript code is shallowly embedded as follows.

* JS numbers are idealized as `JSNum`: a finite IEEE double becomes an exact
  rational, and the special values `Infinity`, `-Infinity` and `NaN` keep
  their JS identity.  Arithmetic follows the ECMAScript rules on these values
  (division by zero yields a signed infinity, `0/0` is `NaN`, comparisons
  with `NaN` are false, and so on), with finite arithmetic exact instead of
  rounded.
* The transcendental parts of the JS `Math` library (`Math.sin`, `Math.cos`,
  `Math.tan`, `Math.log10`, `Math.log`, `Math.sqrt`, `Math.exp`, and
  non-integer exponentiation) are modelled as an explicit parameter
  `MathOracle`: graph.js calls into the host's math library, so theorems
  about expressions that use those functions are stated for every oracle
  satisfying hypotheses that the real functions satisfy.  `Math.abs`,
  `Math.floor`, `Math.ceil`, `Math.round` and integer powers are exact and
  are modelled directly.
* The regex-based text rewriting of `ExpressionParser.parse` (graph.js lines
  50-117) is modelled character-for-character, including the word-boundary
  (`\b`) behaviour of the JS regexes and the `[^)]+` capture used for the
  reciprocal trig rewrites.
* `new Function("x", ...)` (line 120) evaluates the rewritten text as a
  JavaScript expression; this is modelled by a tokenizer and a
  recursive-descent expression grammar covering the fragment the normalizer
  can emit (numbers, identifiers, `Math.name` calls, `+ - * / **`, unary
  sign, parentheses), with unresolved identifiers failing at run time
  (ReferenceError), which the generated function's try/catch turns into NaN.
* JS `for (let x = a; x <= b; x += s)` loops with exact rational `a`, `s`
  are modelled by the list of values `a + k*s` with `a + k*s ≤ b`
  (`sweepPoints`); with exact arithmetic this is precisely the sequence of
  loop values.
-/

set_option maxRecDepth 10000

/- Lean's core rational arithmetic is sealed against unfolding; reopen it so
that concrete evaluations of the embedded program reduce by `decide`/`rfl`
(the kernel itself never honours the seal, this only affects elaboration). -/
unseal Rat.add Rat.sub Rat.mul Rat.inv

namespace GraphJs

/-- JavaScript numbers, idealized: finite doubles become exact rationals;
`Infinity`, `-Infinity` and `NaN` keep their JS identity. -/
inductive JSNum where
  | finite (q : ℚ)
  | posInf
  | negInf
  | nan
deriving DecidableEq, Repr

/-- JS `isFinite`. -/
def JSNum.isFiniteB : JSNum → Bool
  | .finite _ => true
  | _ => false

/-- JS `isNaN`. -/
def JSNum.isNaNB : JSNum → Bool
  | .nan => true
  | _ => false

/-- JS `<` on numbers: any comparison with NaN is false. -/
def jltB : JSNum → JSNum → Bool
  | .nan, _ => false
  | _, .nan => false
  | .finite a, .finite b => decide (a < b)
  | .finite _, .posInf => true
  | .finite _, .negInf => false
  | .posInf, _ => false
  | .negInf, .negInf => false
  | .negInf, _ => true

/-- JS `>`. -/
def jgtB (a b : JSNum) : Bool := jltB b a

/-- JS `<=` on numbers: any comparison with NaN is false. -/
def jleB : JSNum → JSNum → Bool
  | .nan, _ => false
  | _, .nan => false
  | .finite a, .finite b => decide (a ≤ b)
  | .finite _, .posInf => true
  | .finite _, .negInf => false
  | .posInf, .posInf => true
  | .posInf, _ => false
  | .negInf, _ => true

/-- JS `>=`. -/
def jgeB (a b : JSNum) : Bool := jleB b a

/-- JS unary minus. -/
def jneg : JSNum → JSNum
  | .finite q => .finite (-q)
  | .posInf => .negInf
  | .negInf => .posInf
  | .nan => .nan

/-- JS `+` on numbers. -/
def jadd : JSNum → JSNum → JSNum
  | .nan, _ => .nan
  | _, .nan => .nan
  | .finite a, .finite b => .finite (a + b)
  | .finite _, .posInf => .posInf
  | .finite _, .negInf => .negInf
  | .posInf, .finite _ => .posInf
  | .negInf, .finite _ => .negInf
  | .posInf, .posInf => .posInf
  | .posInf, .negInf => .nan
  | .negInf, .posInf => .nan
  | .negInf, .negInf => .negInf

/-- JS `-` on numbers. -/
def jsub (a b : JSNum) : JSNum := jadd a (jneg b)

/-- JS `*` on numbers: `0 * ±∞` is NaN. -/
def jmul : JSNum → JSNum → JSNum
  | .nan, _ => .nan
  | _, .nan => .nan
  | .finite a, .finite b => .finite (a * b)
  | .finite a, .posInf => if a = 0 then .nan else if 0 < a then .posInf else .negInf
  | .finite a, .negInf => if a = 0 then .nan else if 0 < a then .negInf else .posInf
  | .posInf, .finite b => if b = 0 then .nan else if 0 < b then .posInf else .negInf
  | .negInf, .finite b => if b = 0 then .nan else if 0 < b then .negInf else .posInf
  | .posInf, .posInf => .posInf
  | .posInf, .negInf => .negInf
  | .negInf, .posInf => .negInf
  | .negInf, .negInf => .posInf

/-- JS `/` on numbers: `q/0` is a signed infinity for `q ≠ 0` (there is no
negative zero in the idealization, so the sign is the numerator's), `0/0`
and `∞/∞` are NaN. -/
def jdiv : JSNum → JSNum → JSNum
  | .nan, _ => .nan
  | _, .nan => .nan
  | .finite a, .finite b =>
    if b = 0 then (if a = 0 then .nan else if 0 < a then .posInf else .negInf)
    else .finite (a / b)
  | .finite _, .posInf => .finite 0
  | .finite _, .negInf => .finite 0
  | .posInf, .finite b => if b < 0 then .negInf else .posInf
  | .negInf, .finite b => if b < 0 then .posInf else .negInf
  | _, _ => .nan

/-- JS `Math.abs`. -/
def jabs : JSNum → JSNum
  | .finite q => .finite |q|
  | .posInf => .posInf
  | .negInf => .posInf
  | .nan => .nan

/-- JS `Math.sign` (the sign of a NaN is NaN). -/
def jsign : JSNum → JSNum
  | .finite q => .finite (if q = 0 then 0 else if 0 < q then 1 else -1)
  | .posInf => .finite 1
  | .negInf => .finite (-1)
  | .nan => .nan

/-- JS `!==` on numbers: NaN is different from everything, itself included. -/
def jneqB (a b : JSNum) : Bool :=
  if a.isNaNB || b.isNaNB then true else decide (a ≠ b)

/-- JS `Math.max` of two numbers. -/
def jmaxN (a b : JSNum) : JSNum :=
  if a.isNaNB || b.isNaNB then .nan else if jltB a b then b else a

/-- JS `Math.min` of two numbers. -/
def jminN (a b : JSNum) : JSNum :=
  if a.isNaNB || b.isNaNB then .nan else if jltB b a then b else a

/-- The transcendental part of the JS `Math` library, supplied as a
parameter: graph.js delegates these to the host runtime.  `powq` is
`**` for a positive finite base and a finite non-integer exponent. -/
structure MathOracle where
  sin : ℚ → JSNum
  cos : ℚ → JSNum
  tan : ℚ → JSNum
  log10 : ℚ → JSNum
  ln : ℚ → JSNum
  sqrt : ℚ → JSNum
  exp : ℚ → JSNum
  powq : ℚ → ℚ → JSNum

/-- An oracle with no knowledge: every transcendental call yields NaN.
Used to state closed theorems about expressions whose evaluation never
reaches the oracle. -/
def mathDefault : MathOracle where
  sin := fun _ => .nan
  cos := fun _ => .nan
  tan := fun _ => .nan
  log10 := fun _ => .nan
  ln := fun _ => .nan
  sqrt := fun _ => .nan
  exp := fun _ => .nan
  powq := fun _ _ => .nan

/-- Is the rational an odd integer (for the sign of `(-∞) ** e`). -/
def isOddInt (q : ℚ) : Bool := q.den = 1 && q.num % 2 ≠ 0

/-- JS `**` (ECMAScript Number::exponentiate): an exponent of `0` yields `1`
even for NaN/infinite bases; integer exponents of finite bases are exact;
a negative finite base with a non-integer exponent is NaN; a positive
finite base with a finite non-integer exponent is delegated to the
oracle. -/
def jpow (O : MathOracle) (b e : JSNum) : JSNum :=
  match e with
  | .nan => .nan
  | .posInf =>
    match b with
    | .nan => .nan
    | .posInf => .posInf
    | .negInf => .posInf
    | .finite q => if |q| = 1 then .nan else if 1 < |q| then .posInf else .finite 0
  | .negInf =>
    match b with
    | .nan => .nan
    | .posInf => .finite 0
    | .negInf => .finite 0
    | .finite q => if |q| = 1 then .nan else if 1 < |q| then .finite 0 else .posInf
  | .finite qe =>
    if qe = 0 then .finite 1
    else
      match b with
      | .nan => .nan
      | .posInf => if 0 < qe then .posInf else .finite 0
      | .negInf =>
        if 0 < qe then (if isOddInt qe then .negInf else .posInf) else .finite 0
      | .finite qb =>
        if qe.den = 1 then
          (if 0 ≤ qe.num then .finite (qb ^ qe.num.toNat)
           else if qb = 0 then .posInf
           else .finite ((1 / qb) ^ (-qe.num).toNat))
        else
          if qb < 0 then .nan
          else if qb = 0 then .finite 0
          else O.powq qb qe

/-- `Math.sin`/`Math.cos`/`Math.tan` on a JS number: non-finite arguments
give NaN, finite ones go to the oracle. -/
def trigApply (g : ℚ → JSNum) : JSNum → JSNum
  | .finite q => g q
  | _ => .nan

/-- `Math.log` / `Math.log10`: `log 0 = -∞`, negative arguments and NaN
and `-∞` give NaN, `+∞` maps to `+∞`. -/
def logApply (g : ℚ → JSNum) : JSNum → JSNum
  | .finite q => if q < 0 then .nan else if q = 0 then .negInf else g q
  | .posInf => .posInf
  | _ => .nan

/-- `Math.sqrt`: negative arguments give NaN, `sqrt 0 = 0`. -/
def sqrtApply (g : ℚ → JSNum) : JSNum → JSNum
  | .finite q => if q < 0 then .nan else if q = 0 then .finite 0 else g q
  | .posInf => .posInf
  | _ => .nan

/-- `Math.exp`: `exp (-∞) = 0`, `exp (+∞) = +∞`. -/
def expApply (g : ℚ → JSNum) : JSNum → JSNum
  | .finite q => g q
  | .posInf => .posInf
  | .negInf => .finite 0
  | .nan => .nan

/-- `Math.floor` (exact on the idealized rationals). -/
def floorApply : JSNum → JSNum
  | .finite q => .finite (Int.floor q : ℤ)
  | v => v

/-- `Math.ceil`. -/
def ceilApply : JSNum → JSNum
  | .finite q => .finite (Int.ceil q : ℤ)
  | v => v

/-- `Math.round`: halves round toward `+∞`. -/
def roundApply : JSNum → JSNum
  | .finite q => .finite (Int.floor (q + 1 / 2) : ℤ)
  | v => v

/-- The `Math.name` functions the normalizer can emit (graph.js lines
17-32 and 69-97), dispatched by name; an unknown name means the call fails
at run time. -/
def mathApply (O : MathOracle) (name : String) (v : JSNum) : Option JSNum :=
  if name = "Math.sin" then some (trigApply O.sin v)
  else if name = "Math.cos" then some (trigApply O.cos v)
  else if name = "Math.tan" then some (trigApply O.tan v)
  else if name = "Math.log10" then some (logApply O.log10 v)
  else if name = "Math.log" then some (logApply O.ln v)
  else if name = "Math.sqrt" then some (sqrtApply O.sqrt v)
  else if name = "Math.abs" then some (jabs v)
  else if name = "Math.floor" then some (floorApply v)
  else if name = "Math.ceil" then some (ceilApply v)
  else if name = "Math.round" then some (roundApply v)
  else if name = "Math.exp" then some (expApply O.exp v)
  else none

/-- Is the name a member of the modelled `Math` object (a zero-argument
call of one yields NaN instead of failing)? -/
def isMathName (name : String) : Bool :=
  name = "Math.sin" || name = "Math.cos" || name = "Math.tan" ||
  name = "Math.log10" || name = "Math.log" || name = "Math.sqrt" ||
  name = "Math.abs" || name = "Math.floor" || name = "Math.ceil" ||
  name = "Math.round" || name = "Math.exp"

/-! ## The JavaScript expression fragment evaluated by `new Function`

graph.js line 120 builds `new Function("x", "try { const result = EXPR;
return result; } catch (e) { return NaN; }")`.  Constructing the function
syntax-checks EXPR (a failure is a thrown `SyntaxError`, caught by the
outer try of `parse`); calling it evaluates EXPR with `x` bound, any
run-time error (such as a ReferenceError for an identifier that was never
substituted) becoming NaN. -/

/-- Abstract syntax of the JS expression fragment the normalizer can emit. -/
inductive Expr where
  | num (q : ℚ)
  | ident (s : String)
  | add (a b : Expr)
  | sub (a b : Expr)
  | mul (a b : Expr)
  | div (a b : Expr)
  | pow (a b : Expr)
  | neg (a : Expr)
  | call (f : String) (a : Expr)
  | call0 (f : String)
deriving DecidableEq, Repr

/-- Tokens of the fragment. -/
inductive Tok where
  | num (q : ℚ)
  | ident (s : String)
  | plus
  | minus
  | star
  | slash
  | dstar
  | lp
  | rp
deriving DecidableEq, Repr

/-- JS whitespace (the ASCII part). -/
def isJsSpace (c : Char) : Bool :=
  c = ' ' || c = '\t' || c = '\n' || c = '\r' || c.toNat = 11 || c.toNat = 12

/-- A JS identifier-start character. -/
def isIdentStart (c : Char) : Bool := c.isAlpha || c = '_' || c = '$'

/-- A JS identifier-continuation character. -/
def isIdentChar (c : Char) : Bool := c.isAlphanum || c = '_' || c = '$'

/-- The natural number denoted by a digit string. -/
def natOfDigits (ds : List Char) : Nat :=
  ds.foldl (fun a c => a * 10 + (c.toNat - 48)) 0

/-- The rational denoted by an integer part and a fractional part. -/
def ratOfDigits (ds fs : List Char) : ℚ :=
  (natOfDigits ds : ℚ) + (natOfDigits fs : ℚ) / (10 : ℚ) ^ fs.length

/-- Tokenize the arithmetic fragment (numeric literals with an optional
fractional part, identifiers with an optional `.member` segment such as
`Math.sin`, the operators `+ - * / **` and parentheses).  This is a
deliberate restriction of the modelled language, not a fact about the
source: `new Function` accepts full JavaScript — assignments, `?:`,
comma, braces, string literals — so a character outside the fragment is
an error only of this model.  Every theorem stated through `parse`
therefore speaks about inputs whose normalized text lies inside the
fragment; behaviour of compiles beyond it (which may diverge, read or
mutate globals) is not captured here. -/
def tokGo (fuel : Nat) (l : List Char) : Except Unit (List Tok) :=
  match fuel with
  | 0 => .error ()
  | fuel + 1 =>
    match l with
    | [] => .ok []
    | c :: rest =>
      if isJsSpace c then tokGo fuel rest
      else if c.isDigit then
        let ds := (c :: rest).takeWhile Char.isDigit
        let r1 := (c :: rest).drop ds.length
        match r1 with
        | '.' :: r2 =>
          let fs := r2.takeWhile Char.isDigit
          let r3 := r2.drop fs.length
          (tokGo fuel r3).map (fun ts => Tok.num (ratOfDigits ds fs) :: ts)
        | _ => (tokGo fuel r1).map (fun ts => Tok.num (ratOfDigits ds []) :: ts)
      else if isIdentStart c then
        let id1 := (c :: rest).takeWhile isIdentChar
        let r1 := (c :: rest).drop id1.length
        match r1 with
        | '.' :: d :: r2 =>
          if isIdentStart d then
            let id2 := (d :: r2).takeWhile isIdentChar
            let r3 := (d :: r2).drop id2.length
            (tokGo fuel r3).map
              (fun ts => Tok.ident ((id1 ++ '.' :: id2).asString) :: ts)
          else .error ()
        | _ => (tokGo fuel r1).map (fun ts => Tok.ident (id1.asString) :: ts)
      else if c = '+' then (tokGo fuel rest).map (Tok.plus :: ·)
      else if c = '-' then (tokGo fuel rest).map (Tok.minus :: ·)
      else if c = '*' then
        match rest with
        | '*' :: r2 => (tokGo fuel r2).map (Tok.dstar :: ·)
        | _ => (tokGo fuel rest).map (Tok.star :: ·)
      else if c = '/' then (tokGo fuel rest).map (Tok.slash :: ·)
      else if c = '(' then (tokGo fuel rest).map (Tok.lp :: ·)
      else if c = ')' then (tokGo fuel rest).map (Tok.rp :: ·)
      else if c = '.' then
        match rest with
        | d :: _ =>
          if d.isDigit then
            let fs := rest.takeWhile Char.isDigit
            let r2 := rest.drop fs.length
            (tokGo fuel r2).map (fun ts => Tok.num (ratOfDigits [] fs) :: ts)
          else .error ()
        | [] => .error ()
      else .error ()

/-! Recursive-descent grammar matching JS operator structure on the
fragment: additive over multiplicative over unary over exponentiation
(right-associative, and — as in JS — a unary-minus operand may not be the
base of `**`) over atoms. -/

mutual

def parseAdd (fuel : Nat) (ts : List Tok) : Except Unit (Expr × List Tok) :=
  match fuel with
  | 0 => .error ()
  | fuel + 1 => do
    let (a, r) ← parseMul fuel ts
    parseAddRest fuel a r

def parseAddRest (fuel : Nat) (a : Expr) (ts : List Tok) :
    Except Unit (Expr × List Tok) :=
  match fuel with
  | 0 => .error ()
  | fuel + 1 =>
    match ts with
    | Tok.plus :: r => do
      let (b, r2) ← parseMul fuel r
      parseAddRest fuel (.add a b) r2
    | Tok.minus :: r => do
      let (b, r2) ← parseMul fuel r
      parseAddRest fuel (.sub a b) r2
    | _ => .ok (a, ts)

def parseMul (fuel : Nat) (ts : List Tok) : Except Unit (Expr × List Tok) :=
  match fuel with
  | 0 => .error ()
  | fuel + 1 => do
    let (a, r) ← parseUnary fuel ts
    parseMulRest fuel a r

def parseMulRest (fuel : Nat) (a : Expr) (ts : List Tok) :
    Except Unit (Expr × List Tok) :=
  match fuel with
  | 0 => .error ()
  | fuel + 1 =>
    match ts with
    | Tok.star :: r => do
      let (b, r2) ← parseUnary fuel r
      parseMulRest fuel (.mul a b) r2
    | Tok.slash :: r => do
      let (b, r2) ← parseUnary fuel r
      parseMulRest fuel (.div a b) r2
    | _ => .ok (a, ts)

def parseUnary (fuel : Nat) (ts : List Tok) : Except Unit (Expr × List Tok) :=
  match fuel with
  | 0 => .error ()
  | fuel + 1 =>
    match ts with
    | Tok.minus :: r => do
      let (a, r2) ← parseAfterSign fuel r
      match r2 with
      | Tok.dstar :: _ => .error ()
      | _ => .ok (.neg a, r2)
    | Tok.plus :: r => do
      let (a, r2) ← parseAfterSign fuel r
      match r2 with
      | Tok.dstar :: _ => .error ()
      | _ => .ok (a, r2)
    | _ => parsePow fuel ts

def parseAfterSign (fuel : Nat) (ts : List Tok) :
    Except Unit (Expr × List Tok) :=
  match fuel with
  | 0 => .error ()
  | fuel + 1 =>
    match ts with
    | Tok.minus :: r => do
      let (a, r2) ← parseAfterSign fuel r
      .ok (.neg a, r2)
    | Tok.plus :: r => parseAfterSign fuel r
    | _ => parseAtom fuel ts

def parsePow (fuel : Nat) (ts : List Tok) : Except Unit (Expr × List Tok) :=
  match fuel with
  | 0 => .error ()
  | fuel + 1 => do
    let (a, r) ← parseAtom fuel ts
    match r with
    | Tok.dstar :: r2 => do
      let (b, r3) ← parseUnary fuel r2
      .ok (.pow a b, r3)
    | _ => .ok (a, r)

def parseAtom (fuel : Nat) (ts : List Tok) : Except Unit (Expr × List Tok) :=
  match fuel with
  | 0 => .error ()
  | fuel + 1 =>
    match ts with
    | Tok.num q :: r => .ok (.num q, r)
    | Tok.ident s :: Tok.lp :: Tok.rp :: r => .ok (.call0 s, r)
    | Tok.ident s :: Tok.lp :: r => do
      let (a, r2) ← parseAdd fuel r
      match r2 with
      | Tok.rp :: r3 => .ok (.call s a, r3)
      | _ => .error ()
    | Tok.ident s :: r => .ok (.ident s, r)
    | Tok.lp :: r => do
      let (a, r2) ← parseAdd fuel r
      match r2 with
      | Tok.rp :: r3 => .ok (a, r3)
      | _ => .error ()
    | _ => .error ()

end

/-- Tokenize and parse a normalized expression string; an error models the
`SyntaxError` thrown by `new Function` on invalid code. -/
def parseTokens (s : String) : Except Unit Expr := do
  let ts ← tokGo (s.length + 8) s.toList
  let (a, r) ← parseAdd (8 * ts.length + 64) ts
  match r with
  | [] => .ok a
  | _ => .error ()

/-- Evaluate the expression with `x` bound to a (finite) value.  An
`error` is a thrown run-time error: an identifier other than `x` that
survived normalization is unresolved (ReferenceError), as is a call to a
name that is not on the `Math` object.  Purity, totality and determinism
of this function are faithful only because `Expr` is the arithmetic
fragment — a body built from literals, `x`, arithmetic operators and
`Math` calls has no other behaviour; they are not properties of an
arbitrary `new Function` product, which `CallOutcome` below leaves
open. -/
def evalE (O : MathOracle) (x : ℚ) : Expr → Except Unit JSNum
  | .num q => .ok (.finite q)
  | .ident s => if s = "x" then .ok (.finite x) else .error ()
  | .add a b => do
    let va ← evalE O x a
    let vb ← evalE O x b
    .ok (jadd va vb)
  | .sub a b => do
    let va ← evalE O x a
    let vb ← evalE O x b
    .ok (jsub va vb)
  | .mul a b => do
    let va ← evalE O x a
    let vb ← evalE O x b
    .ok (jmul va vb)
  | .div a b => do
    let va ← evalE O x a
    let vb ← evalE O x b
    .ok (jdiv va vb)
  | .pow a b => do
    let va ← evalE O x a
    let vb ← evalE O x b
    .ok (jpow O va vb)
  | .neg a => do
    let v ← evalE O x a
    .ok (jneg v)
  | .call f a => do
    let v ← evalE O x a
    match mathApply O f v with
    | some r => .ok r
    | none => .error ()
  | .call0 f => if isMathName f then .ok .nan else .error ()

/-- The compiled function of graph.js lines 120-130: evaluate the
expression body, catching any run-time error into NaN. -/
def funcEval (O : MathOracle) (ast : Expr) (x : ℚ) : JSNum :=
  match evalE O x ast with
  | .ok v => v
  | .error _ => .nan

/-- JS `typeof` of a number value: everything a compiled function can
return is a number (NaN included). -/
def jsTypeof (_ : JSNum) : String := "number"

/-- `ExpressionParser.evaluate` (graph.js lines 166-177): call the
compiled function, coerce a non-number result to NaN, catch any thrown
error into NaN.  In the model the function is total and number-valued, so
both failure branches are identities. -/
def jsEvaluate (f : ℚ → JSNum) (x : ℚ) : JSNum :=
  let result := f x
  if jsTypeof result = "number" then result else .nan

/-- A host call outcome as `evaluate` observes it: the compiled function
returned a number (finite, a signed infinity, or NaN), returned some
non-number value, or threw.  A call that never returns never reaches
`evaluate`'s coercion at all, so termination, side effects and
determinism of the compiled function are outside `evaluate`'s control;
`new Function` accepts bodies well beyond the arithmetic fragment
modelled by `Expr`. -/
inductive CallOutcome where
  | num (v : JSNum)
  | nonNumber
  | thrown
deriving DecidableEq, Repr

/-- `ExpressionParser.evaluate` (graph.js lines 166-177) as a function
of the call outcome: a non-number result is coerced to NaN (the
`typeof result` test), a thrown error is caught into NaN, and a number
— NaN and the signed infinities included — is returned unchanged. -/
def evaluateOutcome : CallOutcome → JSNum
  | .num v => v
  | .nonNumber => .nan
  | .thrown => .nan

/-! ## The Normalizer: the text rewriting of `ExpressionParser.parse`
(graph.js lines 50-117), one definition per regex replacement, applied in
source order.  JS `String.replace` with a global regex matches over the
original string left to right with non-overlapping matches, so each pass
is a single scan; `\b` (word boundary) is tracked through the previous
original character. -/

/-- A JS word character (the regex class `\w`). -/
def isWordChar (c : Char) : Bool := c.isAlphanum || c = '_'

/-- Does a word boundary precede the current position? -/
def boundOk : Option Char → Bool
  | none => true
  | some p => !isWordChar p

/-- Is there a word boundary after the matched name (the next original
character, if any, is not a word character)? -/
def tailBoundOk : List Char → Bool
  | [] => true
  | d :: _ => !isWordChar d

/-- JS `trim`. -/
def jsTrim (s : String) : String :=
  (((s.toList.dropWhile isJsSpace).reverse.dropWhile isJsSpace).reverse).asString

/-- `replace(/\^/g, "**")` (line 60). -/
def caretGo : List Char → List Char
  | [] => []
  | c :: rest =>
    if c = '^' then '*' :: '*' :: caretGo rest else c :: caretGo rest

/-- One constant-substitution pass, `replace(new RegExp("\\bNAME\\b", "g"),
VALUE)` (lines 63-66). -/
def substConstGo (name val : List Char) (fuel : Nat) (prev : Option Char)
    (l : List Char) : List Char :=
  match fuel with
  | 0 => l
  | fuel + 1 =>
    match l with
    | [] => []
    | c :: rest =>
      if boundOk prev && name.isPrefixOf (c :: rest)
          && tailBoundOk ((c :: rest).drop name.length) then
        val ++ substConstGo name val fuel name.getLast? ((c :: rest).drop name.length)
      else
        c :: substConstGo name val fuel (some c) rest

/-- One function-name pass, `replace(new RegExp("\\bNAME\\(", "g"), REPL)`
(lines 69-74 and 94-96): REPL ends with the opening parenthesis. -/
def substFuncGo (pat repl : List Char) (fuel : Nat) (prev : Option Char)
    (l : List Char) : List Char :=
  match fuel with
  | 0 => l
  | fuel + 1 =>
    match l with
    | [] => []
    | c :: rest =>
      if boundOk prev && pat.isPrefixOf (c :: rest) then
        repl ++ substFuncGo pat repl fuel (some '(') ((c :: rest).drop pat.length)
      else
        c :: substFuncGo pat repl fuel (some c) rest

/-- One reciprocal-trig pass, `replace(new RegExp("\\bNAME\\(([^)]+)\\)",
"g"), "(1/Math.INNER($1))")` (lines 75-93).  The capture group `[^)]+`
cannot cross a closing parenthesis, so the captured argument runs to the
first `)` after the call — a nested `)` inside the argument cuts the
capture short. -/
def substRecipGo (name inner : List Char) (fuel : Nat) (prev : Option Char)
    (l : List Char) : List Char :=
  match fuel with
  | 0 => l
  | fuel + 1 =>
    match l with
    | [] => []
    | c :: rest =>
      let pat := name ++ ['(']
      if boundOk prev && pat.isPrefixOf (c :: rest) then
        let after := (c :: rest).drop pat.length
        let seg := after.takeWhile (fun d => d ≠ ')')
        if 0 < seg.length && seg.length < after.length then
          ( "(1/Math.".toList ++ inner ++ '(' :: seg ++ [')', ')'])
            ++ substRecipGo name inner fuel (some ')') (after.drop (seg.length + 1))
        else
          c :: substRecipGo name inner fuel (some c) rest
      else
        c :: substRecipGo name inner fuel (some c) rest

/-- `replace(/(\d)([a-z])/g, "$1*$2")` (line 100). -/
def digitLetterGo : List Char → List Char
  | [] => []
  | [c] => [c]
  | c1 :: c2 :: rest =>
    if c1.isDigit && c2.isLower then
      c1 :: '*' :: c2 :: digitLetterGo rest
    else
      c1 :: digitLetterGo (c2 :: rest)

/-- `replace(/\)([a-z])/g, ")*$1")` (line 101). -/
def rpLetterGo : List Char → List Char
  | [] => []
  | [c] => [c]
  | c1 :: c2 :: rest =>
    if c1 = ')' && c2.isLower then
      c1 :: '*' :: c2 :: rpLetterGo rest
    else
      c1 :: rpLetterGo (c2 :: rest)

/-- `replace(/(\d)\(/g, "$1*(")` (line 102). -/
def digitLpGo : List Char → List Char
  | [] => []
  | [c] => [c]
  | c1 :: c2 :: rest =>
    if c1.isDigit && c2 = '(' then
      c1 :: '*' :: c2 :: digitLpGo rest
    else
      c1 :: digitLpGo (c2 :: rest)

/-- `replace(/\)(\d)/g, ")*$1")` (line 103). -/
def rpDigitGo : List Char → List Char
  | [] => []
  | [c] => [c]
  | c1 :: c2 :: rest =>
    if c1 = ')' && c2.isDigit then
      c1 :: '*' :: c2 :: rpDigitGo rest
    else
      c1 :: rpDigitGo (c2 :: rest)

/-- `replace(/\b([a-z])\(/g, "$1*(")` (line 106): implicit multiplication
for a single variable letter before `(`, never for a function-name head
(those have a word character before their last letter). -/
def letterLpGo (fuel : Nat) (prev : Option Char) (l : List Char) : List Char :=
  match fuel with
  | 0 => l
  | fuel + 1 =>
    match l with
    | [] => []
    | [c] => [c]
    | c1 :: c2 :: rest =>
      if boundOk prev && c1.isLower && c2 = '(' then
        c1 :: '*' :: c2 :: letterLpGo fuel (some '(') rest
      else
        c1 :: letterLpGo fuel (some c1) (c2 :: rest)

/-- One pass of the function-name loop of lines 69-97 (iteration follows
the insertion order of `this.functions`). -/
def funcPass (name : String) (l : List Char) : List Char :=
  let fuel := l.length + 1
  if name = "log" then substFuncGo "log(".toList "Math.log10(".toList fuel none l
  else if name = "ln" then substFuncGo "ln(".toList "Math.log(".toList fuel none l
  else if name = "csc" then substRecipGo "csc".toList "sin".toList fuel none l
  else if name = "sec" then substRecipGo "sec".toList "cos".toList fuel none l
  else if name = "cot" then substRecipGo "cot".toList "tan".toList fuel none l
  else
    substFuncGo (name.toList ++ ['(']) ( "Math.".toList ++ name.toList ++ ['('])
      fuel none l

/-- The key order of `this.functions` (graph.js lines 17-32). -/
def functionNames : List String :=
  [ "sin", "cos", "tan", "csc", "sec", "cot", "log", "ln", "sqrt", "abs",
    "floor", "ceil", "round", "exp"]

/-- The full normalization of `ExpressionParser.parse` (lines 59-106):
lowercase; `^` to `**`; constants `pi` then `e` on word boundaries;
function names in table order; the four implicit-multiplication passes;
the single-variable-before-parenthesis pass. -/
def normalize (raw : String) : String :=
  let s0 := raw.toList.map Char.toLower
  let s1 := caretGo s0
  let s2 := substConstGo "pi".toList "3.141592653589793".toList (s1.length + 1) none s1
  let s3 := substConstGo "e".toList "2.718281828459045".toList (s2.length + 1) none s2
  let s4 := functionNames.foldl (fun l n => funcPass n l) s3
  let s5 := digitLetterGo s4
  let s6 := rpLetterGo s5
  let s7 := digitLpGo s6
  let s8 := rpDigitGo s7
  let s9 := letterLpGo (s8.length + 1) none s8
  s9.asString

/-- The parenthesis validation of lines 110-117: scan left to right,
failing the moment the counter goes negative, and at the end unless it is
zero. -/
def parenScan : List Char → Int → Bool
  | [], n => n = 0
  | c :: rest, n =>
    let n2 := if c = '(' then n + 1 else if c = ')' then n - 1 else n
    if n2 < 0 then false else parenScan rest n2

/-! ## The compile pipeline (`ExpressionParser.parse`, lines 50-164) -/

/-- The failure modes of `parse`.  The spec names the first, second and
fourth `EmptyExpressionError`, `SyntaxError` and `UnevaluableExpressionError`;
`badJs` is the remaining mode: the normalized text is not a valid JS
expression, so `new Function` itself throws (line 120), surfaced by the
outer catch as `Invalid expression: ...` (lines 158-163). -/
inductive CompileError where
  | emptyExpr
  | mismatchedParens
  | badJs
  | notEvaluable
deriving DecidableEq, Repr

/-- The oracle-free part of `parse`: the empty check (lines 52-54), the
normalization (lines 59-106), the parenthesis validation (lines 110-117)
and the construction of the function (line 120). -/
def compileAst (raw : String) : Except CompileError Expr :=
  if jsTrim raw = "" then .error .emptyExpr
  else
    let e := normalize raw
    if !parenScan e.toList 0 then .error .mismatchedParens
    else
      match parseTokens e with
      | .error _ => .error .badJs
      | .ok ast => .ok ast

/-- The fixed probe values of line 133. -/
def testValues : List ℚ := [0, 1, -1, 1 / 2, 2]

/-- `ExpressionParser.parse` (lines 50-164): compile, then test the
function on the probes (lines 132-155), accepting as soon as one probe
returns a finite number and failing with `notEvaluable` when none does.
The result carries the AST of the compiled function; the evaluator itself
is `funcEval O ast`. -/
def parse (O : MathOracle) (raw : String) : Except CompileError Expr :=
  match compileAst raw with
  | .error err => .error err
  | .ok ast =>
    if testValues.any (fun t => (funcEval O ast t).isFiniteB) then .ok ast
    else .error .notEvaluable

/-! ## Sampling loops

A JS loop `for (let x = a; x <= b; x += s)` with positive step is modelled
by the list of its (exact rational) loop values: `a + k*s` for
`0 ≤ k ≤ ⌊(b - a)/s⌋`. -/

/-- The loop values of `for (let x = x0; x <= bound; x += step)`. -/
def sweepPoints (x0 step bound : ℚ) : List ℚ :=
  if 0 < step ∧ x0 ≤ bound then
    (List.range ((Int.floor ((bound - x0) / step)).toNat + 1)).map
      (fun (k : ℕ) => x0 + (k : ℚ) * step)
  else []

/-! ## `FunctionAnalyzer` (graph.js lines 181-541) -/

/-- The sample points of `FunctionAnalyzer.isFunction` (line 233). -/
def isFunctionPoints : List ℚ := [-5, -2, 0, 1, 3, 5]

/-- `FunctionAnalyzer.isFunction` (lines 229-247): the simplified
vertical-line test, false as soon as a sampled value is not
number-typed. -/
def isFunction (f : ℚ → JSNum) : Bool :=
  isFunctionPoints.all (fun x => decide (jsTypeof (jsEvaluate f x) = "number"))

/-- The result record of `checkSymmetry`. -/
structure Symmetry where
  isEven : Bool
  isOdd : Bool
deriving DecidableEq, Repr

/-- The sample points of `checkSymmetry` (line 250). -/
def symmetryPoints : List ℚ := [-3, -2, -1, -1 / 2, 1 / 2, 1, 2, 3]

/-- The `1e-10` tolerance of line 254. -/
def symTolerance : ℚ := 1 / 10000000000

/-- One iteration of the symmetry loop (lines 256-286), on the state
(totalTests, evenCount, oddCount): skip x = 0 and pairs with a
non-finite member; otherwise count a hit of `|f(-x) − f(x)| < 1e-10`
toward even and of `|f(-x) − (−f(x))| < 1e-10` toward odd. -/
def symStep (f : ℚ → JSNum) (st : ℕ × ℕ × ℕ) (x : ℚ) : ℕ × ℕ × ℕ :=
  if x = 0 then st
  else
    let fx := jsEvaluate f x
    let fNegX := jsEvaluate f (-x)
    if fx.isNaNB || fNegX.isNaNB || !fx.isFiniteB || !fNegX.isFiniteB then st
    else
      let t := st.1 + 1
      let ec :=
        if jltB (jabs (jsub fNegX fx)) (.finite symTolerance) then st.2.1 + 1
        else st.2.1
      let oc :=
        if jltB (jabs (jsub fNegX (jneg fx))) (.finite symTolerance) then st.2.2 + 1
        else st.2.2
      (t, ec, oc)

/-- `FunctionAnalyzer.checkSymmetry` (lines 249-293): run the loop over
the sample points, then classify even/odd when the respective counter
reaches 80% of the valid tests (and some test was valid). -/
def checkSymmetry (f : ℚ → JSNum) : Symmetry :=
  let st := symmetryPoints.foldl (symStep f) (0, 0, 0)
  { isEven := decide (0 < st.1) && decide ((st.2.1 : ℚ) / (st.1 : ℚ) ≥ 4 / 5),
    isOdd := decide (0 < st.1) && decide ((st.2.2 : ℚ) / (st.1 : ℚ) ≥ 4 / 5) }

/-- The sample points of `isOneToOne` (lines 297-300): −5 to 5 in steps
of 0.5 (exact in binary, hence exact in JS too). -/
def oneToOnePoints : List ℚ := sweepPoints (-5) (1 / 2) 5

/-- The `1e-8` tolerance of line 303. -/
def o2oTolerance : ℚ := 1 / 100000000

/-- The loop of `FunctionAnalyzer.isOneToOne` (lines 305-322): skip
non-finite samples; return false as soon as a new finite value is within
tolerance of a collected one; otherwise append and continue; at the end
require more than 5 collected values. -/
def isOneToOneGo (f : ℚ → JSNum) : List ℚ → List JSNum → Bool
  | [], ys => decide (5 < ys.length)
  | x :: rest, ys =>
    let y := jsEvaluate f x
    if y.isNaNB || !y.isFiniteB then isOneToOneGo f rest ys
    else if ys.any (fun p => jltB (jabs (jsub y p)) (.finite o2oTolerance)) then
      false
    else isOneToOneGo f rest (ys ++ [y])

/-- `FunctionAnalyzer.isOneToOne` (lines 295-323). -/
def isOneToOne (f : ℚ → JSNum) : Bool := isOneToOneGo f oneToOnePoints []

/-- Substring search (JS `String.includes`). -/
def subSearch (pat : List Char) : Nat → List Char → Bool
  | 0, _ => false
  | _ + 1, [] => pat.isEmpty
  | fuel + 1, c :: rest => pat.isPrefixOf (c :: rest) || subSearch pat fuel rest

/-- JS `includes`. -/
def includesStr (pat s : String) : Bool :=
  subSearch pat.toList (s.length + 1) s.toList

/-- Search for `NAME\([^)]*x[^)]*\)` (the compound-argument patterns of
lines 340 and 349): an occurrence of `NAME(` whose argument — the
characters up to the first following `)`, which must exist — contains
`x`. -/
def argXSearch (pat : List Char) : Nat → List Char → Bool
  | 0, _ => false
  | _ + 1, [] => false
  | fuel + 1, c :: rest =>
    (pat.isPrefixOf (c :: rest) &&
      (let after := (c :: rest).drop pat.length
       let seg := after.takeWhile (fun d => d ≠ ')')
       decide (seg.length < after.length) && seg.contains 'x'))
    || argXSearch pat fuel rest

/-- The match of `NAME\([^)]*x[^)]*\)` against a string. -/
def matchFnArgX (name s : String) : Bool :=
  argXSearch (name.toList ++ ['(']) (s.length + 1) s.toList

/-- JS `Number.toString` for the multiples of `1/10` produced by the
domain sweep's rounding. -/
def tenthString (q : ℚ) : String :=
  if q < 0 then "-" ++ tenthString (-q)
  else if q.den = 1 then toString q.num
  else toString (Int.floor q) ++ "." ++ toString (Int.floor (q * 10) % 10)
termination_by (if q < 0 then 1 else 0 : Nat)
decreasing_by simp_all; linarith

/-- The sample points of the domain fallback sweep (lines 372-375). -/
def domainSweepPoints : List ℚ := sweepPoints (-20) (1 / 10) 20

/-- The fallback numeric sweep of `analyzeDomain` (lines 370-394):
collect the points with a non-finite value, rounded to one decimal,
deduplicated within 0.05; list up to 5, report "multiple restrictions"
beyond that, and "all real numbers" when none was found. -/
def domainSweep (f : ℚ → JSNum) : String :=
  let restrictions := domainSweepPoints.foldl (fun rs x =>
    let y := jsEvaluate f x
    if !y.isFiniteB then
      let rounded := (Int.floor (x * 10 + 1 / 2) : ℚ) / 10
      if rs.any (fun r => |r - rounded| < 1 / 20) then rs else rs ++ [rounded]
    else rs) []
  if 0 < restrictions.length then
    if restrictions.length ≤ 5 then
      "x ≠ " ++ String.intercalate ", " (restrictions.map tenthString)
    else "Multiple restrictions (see graph for asymptotes)"
  else "All real numbers (ℝ)"

/-- `FunctionAnalyzer.analyzeDomain` (lines 331-395): textual restriction
patterns on the (lowercased) expression, in source order — sqrt, then
log/ln, then a `/x` denominator, then the restricted trig functions —
with the numeric sweep as fallback.  An outer `includes` guard whose inner
patterns both fail falls through to the next group, as in the source. -/
def analyzeDomain (f : ℚ → JSNum) (expression : String) : String :=
  let expr := (expression.toList.map Char.toLower).asString
  if includesStr "sqrt(" expr && includesStr "sqrt(x)" expr then "x ≥ 0"
  else if includesStr "sqrt(" expr && matchFnArgX "sqrt" expr then
    "Expression under √ must be ≥ 0"
  else if (includesStr "log(" expr || includesStr "ln(" expr)
      && (includesStr "log(x)" expr || includesStr "ln(x)" expr) then "x > 0"
  else if (includesStr "log(" expr || includesStr "ln(" expr)
      && (matchFnArgX "log" expr || matchFnArgX "ln" expr) then
    "Expression inside log must be > 0"
  else if includesStr "/x" expr || includesStr "1/x" expr then "x ≠ 0"
  else if includesStr "tan(x)" expr || includesStr "cot(x)" expr then
    "x ≠ π/2 + nπ, where n is any integer"
  else if includesStr "sec(x)" expr then "x ≠ π/2 + nπ, where n is any integer"
  else if includesStr "csc(x)" expr then "x ≠ nπ, where n is any integer"
  else domainSweep f

/-- JS `Number.toFixed(2)` for a nonnegative rational: the numerator of
the closest multiple of 1/100, ties toward the larger. -/
def toFixed2Pos (q : ℚ) : String :=
  let n := (Int.floor (q * 100 + 1 / 2)).toNat
  toString (n / 100) ++ "." ++ (if n % 100 < 10 then "0" else "") ++ toString (n % 100)

/-- JS `Number.toFixed(2)`. -/
def toFixed2 : JSNum → String
  | .finite q => if q < 0 then "-" ++ toFixed2Pos (-q) else toFixed2Pos q
  | .posInf => "Infinity"
  | .negInf => "-Infinity"
  | .nan => "NaN"

/-- The running state of the range sweep (lines 401-406): `minY` starts
at `Infinity` and `maxY` at `-Infinity`, exactly as in the source. -/
structure RangeState where
  minY : JSNum
  maxY : JSNum
  hasInfiniteValues : Bool
  hasPositiveInfinite : Bool
  hasNegativeInfinite : Bool
  validPoints : Nat
deriving DecidableEq, Repr

/-- The initial range state. -/
def rangeInit : RangeState :=
  { minY := .posInf, maxY := .negInf, hasInfiniteValues := false,
    hasPositiveInfinite := false, hasNegativeInfinite := false, validPoints := 0 }

/-- One iteration of the range sweep (lines 408-421). -/
def rangeStep (f : ℚ → JSNum) (st : RangeState) (x : ℚ) : RangeState :=
  let y := jsEvaluate f x
  if !y.isFiniteB then
    { st with hasInfiniteValues := true,
              hasPositiveInfinite := st.hasPositiveInfinite || y == .posInf,
              hasNegativeInfinite := st.hasNegativeInfinite || y == .negInf }
  else
    { st with validPoints := st.validPoints + 1,
              minY := if jltB y st.minY then y else st.minY,
              maxY := if jgtB y st.maxY then y else st.maxY }

/-- The sample points of the range sweep (lines 399-408): −50 to 50 in
steps of 0.1. -/
def rangeSweepPoints : List ℚ := sweepPoints (-50) (1 / 10) 50

/-- The decision chain of `analyzeRange` after the sweep (lines 423-539),
in source order: infinity flags; insufficient data; the five fixed probes
with the parabola-like, then strictly-monotone tests; approximate
constancy; the bounded-trig window; min (then max) near zero; a span over
100; and the explicit bounds default. -/
def rangeDecision (f : ℚ → JSNum) (st : RangeState) : String :=
  if st.hasInfiniteValues && st.hasPositiveInfinite && st.hasNegativeInfinite then
    "All real numbers (ℝ)"
  else if st.hasInfiniteValues && st.hasPositiveInfinite then "y → +∞"
  else if st.hasInfiniteValues && st.hasNegativeInfinite then "y → -∞"
  else if !st.minY.isFiniteB || !st.maxY.isFiniteB || st.validPoints < 10 then
    "Cannot determine range"
  else
    let y0 := jsEvaluate f (-100)
    let y1 := jsEvaluate f (-10)
    let y2 := jsEvaluate f 0
    let y3 := jsEvaluate f 10
    let y4 := jsEvaluate f 100
    let allFinite := y0.isFiniteB && y1.isFiniteB && y2.isFiniteB
      && y3.isFiniteB && y4.isFiniteB
    if allFinite && jgtB y0 (.finite 100) && jgtB y4 (.finite 100)
        && jleB y2 (jminN y0 y4) then
      if jgeB st.minY (.finite (-1 / 10)) && jleB st.minY (.finite (1 / 10)) then
        "y ≥ 0"
      else "y ≥ " ++ toFixed2 st.minY
    else if allFinite && jltB y0 (.finite (-100)) && jltB y4 (.finite (-100))
        && jgeB y2 (jmaxN y0 y4) then
      if jgeB st.maxY (.finite (-1 / 10)) && jleB st.maxY (.finite (1 / 10)) then
        "y ≤ 0"
      else "y ≤ " ++ toFixed2 st.maxY
    else if allFinite && jltB y0 y1 && jltB y1 y2 && jltB y2 y3 && jltB y3 y4
        && jgtB (jabs (jdiv (jsub y4 y0) (.finite 200))) (.finite (1 / 10)) then
      "All real numbers (ℝ)"
    else if allFinite && jgtB y0 y1 && jgtB y1 y2 && jgtB y2 y3 && jgtB y3 y4
        && jgtB (jabs (jdiv (jsub y4 y0) (.finite 200))) (.finite (1 / 10)) then
      "All real numbers (ℝ)"
    else if jltB (jabs (jsub st.maxY st.minY)) (.finite (1 / 100)) then
      "y ≈ " ++ toFixed2 (jdiv (jadd st.minY st.maxY) (.finite 2))
        ++ " (approximately constant)"
    else if jgeB st.minY (.finite (-11 / 10)) && jleB st.maxY (.finite (11 / 10))
        && jleB st.minY (.finite (-9 / 10)) && jgeB st.maxY (.finite (9 / 10)) then
      "-1 ≤ y ≤ 1"
    else if jgeB st.minY (.finite (-1 / 10)) && jleB st.minY (.finite (1 / 10)) then
      if jgtB st.maxY (.finite 100) then "y ≥ 0"
      else "0 ≤ y ≤ " ++ toFixed2 st.maxY
    else if jgeB st.maxY (.finite (-1 / 10)) && jleB st.maxY (.finite (1 / 10)) then
      if jltB st.minY (.finite (-100)) then "y ≤ 0"
      else toFixed2 st.minY ++ " ≤ y ≤ 0"
    else if jgtB (jabs (jsub st.maxY st.minY)) (.finite 100) then
      "All real numbers (ℝ)"
    else toFixed2 st.minY ++ " ≤ y ≤ " ++ toFixed2 st.maxY

/-- `FunctionAnalyzer.analyzeRange` (lines 397-540). -/
def analyzeRange (f : ℚ → JSNum) : String :=
  rangeDecision f (rangeSweepPoints.foldl (rangeStep f) rangeInit)

/-- The `AnalysisReport` record assembled by `analyzeFunction`
(lines 186-227). -/
structure Analysis where
  isFunction : Bool
  isOdd : Option Bool
  isEven : Option Bool
  isOneToOne : Option Bool
  domain : Option String
  range : Option String
  properties : List String
deriving DecidableEq, Repr

/-- `FunctionAnalyzer.analyzeFunction` (lines 186-227): the vertical-line
flag, and — when it holds — the four analyses and the property labels. -/
def analyzeFunction (f : ℚ → JSNum) (expression : String) : Analysis :=
  let isF := isFunction f
  if isF then
    let sym := checkSymmetry f
    let oto := isOneToOne f
    { isFunction := isF
      isOdd := some sym.isOdd
      isEven := some sym.isEven
      isOneToOne := some oto
      domain := some (analyzeDomain f expression)
      range := some (analyzeRange f)
      properties :=
        (if sym.isEven then [ "Even"] else []) ++
        (if sym.isOdd then [ "Odd"] else []) ++
        (if oto then [ "One-to-One"] else []) ++
        (if !sym.isEven && !sym.isOdd then [ "Neither Even nor Odd"] else []) }
  else
    { isFunction := isF, isOdd := none, isEven := none, isOneToOne := none,
      domain := none, range := none, properties := [] }

/-! ## The asymptote detector (`drawAsymptotes`, graph.js lines 695-783)

The scan itself (lines 698-765), detached from the canvas: the renderer
supplies the visible range and the zoom-scaled threshold; the step is a
fixed 1/2000 of the range. -/

/-- The candidate collection and deduplication of `drawAsymptotes`:
method 1 (non-finite centre with finite neighbours), method 2 (finite
triple, both neighbours beyond the threshold with opposite signs),
method 3 (one-sided slope beyond `threshold/step` with the neighbours
straddling `±threshold`); then deduplication, dropping a candidate within
`10 × step` of an already kept one. -/
def asymCond (f : ℚ → JSNum) (step : ℚ) (thr : JSNum) (x : ℚ) : Bool :=
  let y := jsEvaluate f x
  let yLeft := jsEvaluate f (x - step)
  let yRight := jsEvaluate f (x + step)
  let m1 := !y.isFiniteB && yLeft.isFiniteB && yRight.isFiniteB
  let m2 := yLeft.isFiniteB && yRight.isFiniteB && y.isFiniteB
    && jgtB (jabs yLeft) thr && jgtB (jabs yRight) thr
    && jneqB (jsign yLeft) (jsign yRight)
  let slope1 := jdiv (jabs (jsub y yLeft)) (.finite step)
  let slope2 := jdiv (jabs (jsub yRight y)) (.finite step)
  let m3 := yLeft.isFiniteB && yRight.isFiniteB
    && jgtB (jmaxN slope1 slope2) (jdiv thr (.finite step))
    && ((jgtB yLeft thr && jltB yRight (jneg thr))
        || (jltB yLeft (jneg thr) && jgtB yRight thr))
  m1 || m2 || m3

/-- One iteration of the candidate collection: append x when one of the
three methods flags it. -/
def asymStep (f : ℚ → JSNum) (step : ℚ) (thr : JSNum) (acc : List ℚ) (x : ℚ) :
    List ℚ :=
  if asymCond f step thr x then acc ++ [x] else acc

/-- The full scan: collect candidates over the sweep, then deduplicate. -/
def scanAsymptotes (f : ℚ → JSNum) (xMin xMax yThreshold : ℚ) : List ℚ :=
  let step := (xMax - xMin) / 2000
  let pts := sweepPoints xMin step xMax
  let asymptotes := pts.foldl (asymStep f step (.finite yThreshold)) []
  let minDistance := step * 10
  asymptotes.foldl (fun cleaned a =>
    if cleaned.any (fun ex => |ex - a| < minDistance) then cleaned
    else cleaned ++ [a]) []

/-! ## Concrete compiled ASTs used in the theorems -/

/-- The evaluator AST compiled from "1/x". -/
def astInv : Expr := .div (.num 1) (.ident "x")

/-- The evaluator AST compiled from "x". -/
def astX : Expr := .ident "x"

/-- The evaluator AST compiled from "x^2". -/
def astSq : Expr := .pow (.ident "x") (.num 2)

/-- The evaluator AST compiled from "x^3". -/
def astCube : Expr := .pow (.ident "x") (.num 3)

/-- The evaluator AST compiled from "x+1". -/
def astXp1 : Expr := .add (.ident "x") (.num 1)

/-- The evaluator AST compiled from "sin(x)". -/
def astSin : Expr := .call "Math.sin" (.ident "x")

/-- The evaluator AST compiled from "2pi": the constant was never
substituted (no word boundary inside "2pi"), so the identifier `pi`
survives into the code and is unresolved at run time. -/
def astTwoPiBad : Expr := .mul (.num 2) (.ident "pi")

/-- The evaluator AST compiled from "2*pi". -/
def astTwoPi : Expr := .mul (.num 2) (.num (3141592653589793 / 1000000000000000))

/-- The evaluator AST compiled from "csc(2*x+1)" and from "1/sin(2*x+1)"
(one and the same). -/
def astRecipFlat : Expr :=
  .div (.num 1) (.call "Math.sin" (.add (.mul (.num 2) (.ident "x")) (.num 1)))

/-- The evaluator AST compiled from "sec(2*x+1)" and from "1/cos(2*x+1)". -/
def astRecipFlatSec : Expr :=
  .div (.num 1) (.call "Math.cos" (.add (.mul (.num 2) (.ident "x")) (.num 1)))

/-- The evaluator AST compiled from "cot(2*x+1)" and from "1/tan(2*x+1)". -/
def astRecipFlatCot : Expr :=
  .div (.num 1) (.call "Math.tan" (.add (.mul (.num 2) (.ident "x")) (.num 1)))

/-- The evaluator AST compiled from "csc(sin(x)+1)": the `[^)]+` capture
stops at the first closing parenthesis, producing `1/sin(sin(x)) + 1`. -/
def astCscNested : Expr :=
  .add (.div (.num 1) (.call "Math.sin" (.call "Math.sin" (.ident "x")))) (.num 1)

/-- The evaluator AST compiled from "1/sin(sin(x)+1)" — the rewrite the
spec describes for "csc(sin(x)+1)". -/
def astCscNestedSpec : Expr :=
  .div (.num 1) (.call "Math.sin" (.add (.call "Math.sin" (.ident "x")) (.num 1)))

/-- A concrete oracle whose sine is the cubic Taylor approximation
`q - q³/6` (finite everywhere, zero exactly at 0, nonzero at the other
probe arguments used here); every other entry is NaN.  Used to exhibit
concrete evaluations of expressions that call `Math.sin`. -/
def oracleT : MathOracle where
  sin := fun q => .finite (q - q ^ 3 / 6)
  cos := fun _ => .nan
  tan := fun _ => .nan
  log10 := fun _ => .nan
  ln := fun _ => .nan
  sqrt := fun _ => .nan
  exp := fun _ => .nan
  powq := fun _ _ => .nan

/-! ## Proof infrastructure -/

theorem jsEvaluate_eq (f : ℚ → JSNum) (x : ℚ) : jsEvaluate f x = f x := by
  simp [jsEvaluate, jsTypeof]

theorem jltB_fin (a b : ℚ) : jltB (.finite a) (.finite b) = decide (a < b) := rfl

theorem jleB_fin (a b : ℚ) : jleB (.finite a) (.finite b) = decide (a ≤ b) := rfl

theorem jgtB_fin (a b : ℚ) : jgtB (.finite a) (.finite b) = decide (b < a) := rfl

theorem jgeB_fin (a b : ℚ) : jgeB (.finite a) (.finite b) = decide (b ≤ a) := rfl

theorem isFiniteB_fin (a : ℚ) : (JSNum.finite a).isFiniteB = true := rfl

/-- Membership in a sweep: the `k`-th loop value is in the list when `k`
does not exceed the loop's iteration count. -/
theorem mem_sweepPoints (x0 step bound : ℚ) (k : ℕ) (hs : 0 < step)
    (hb : x0 ≤ bound) (hk : (k : ℤ) ≤ Int.floor ((bound - x0) / step)) :
    x0 + (k : ℚ) * step ∈ sweepPoints x0 step bound := by
  unfold sweepPoints
  rw [if_pos ⟨hs, hb⟩]
  simp only [List.mem_map, List.mem_range]
  exact ⟨k, by omega, rfl⟩

/-- The length of a sweep. -/
theorem length_sweepPoints (x0 step bound : ℚ) (hs : 0 < step) (hb : x0 ≤ bound) :
    (sweepPoints x0 step bound).length =
      (Int.floor ((bound - x0) / step)).toNat + 1 := by
  unfold sweepPoints
  rw [if_pos ⟨hs, hb⟩]
  rw [List.length_map, List.length_range]

/-- A range-sweep step at a finite sample. -/
theorem rangeStep_finite (f : ℚ → JSNum) (st : RangeState) (x : ℚ) (m : ℚ)
    (h : f x = .finite m) :
    rangeStep f st x =
      { st with validPoints := st.validPoints + 1,
                minY := if jltB (.finite m) st.minY then .finite m else st.minY,
                maxY := if jgtB (.finite m) st.maxY then .finite m else st.maxY } := by
  unfold rangeStep
  rw [jsEvaluate_eq, h]
  simp [JSNum.isFiniteB]

theorem rangeStep_finite_minY (f : ℚ → JSNum) (st : RangeState) (x : ℚ) (m : ℚ)
    (h : f x = .finite m) :
    (rangeStep f st x).minY =
      if jltB (.finite m) st.minY then .finite m else st.minY := by
  rw [rangeStep_finite f st x m h]

theorem rangeStep_finite_maxY (f : ℚ → JSNum) (st : RangeState) (x : ℚ) (m : ℚ)
    (h : f x = .finite m) :
    (rangeStep f st x).maxY =
      if jgtB (.finite m) st.maxY then .finite m else st.maxY := by
  rw [rangeStep_finite f st x m h]

theorem rangeStep_finite_flags (f : ℚ → JSNum) (st : RangeState) (x : ℚ) (m : ℚ)
    (h : f x = .finite m) :
    (rangeStep f st x).hasInfiniteValues = st.hasInfiniteValues ∧
    (rangeStep f st x).hasPositiveInfinite = st.hasPositiveInfinite ∧
    (rangeStep f st x).hasNegativeInfinite = st.hasNegativeInfinite ∧
    (rangeStep f st x).validPoints = st.validPoints + 1 := by
  rw [rangeStep_finite f st x m h]
  exact ⟨rfl, rfl, rfl, rfl⟩

/-- Over samples that are all finite, the range sweep leaves the
infinity flags alone and counts every sample as valid. -/
theorem rangeFold_flags (f : ℚ → JSNum) (L : List ℚ) (st : RangeState)
    (hf : ∀ q : ℚ, ∃ m, f q = .finite m) :
    (L.foldl (rangeStep f) st).hasInfiniteValues = st.hasInfiniteValues ∧
    (L.foldl (rangeStep f) st).hasPositiveInfinite = st.hasPositiveInfinite ∧
    (L.foldl (rangeStep f) st).hasNegativeInfinite = st.hasNegativeInfinite ∧
    (L.foldl (rangeStep f) st).validPoints = st.validPoints + L.length := by
  induction L generalizing st with
  | nil => simp
  | cons x xs ih =>
    obtain ⟨m, hm⟩ := hf x
    rw [List.foldl_cons]
    obtain ⟨h1, h2, h3, h4⟩ := ih (rangeStep f st x)
    obtain ⟨g1, g2, g3, g4⟩ := rangeStep_finite_flags f st x m hm
    refine ⟨h1.trans g1, h2.trans g2, h3.trans g3, ?_⟩
    rw [h4, g4, List.length_cons]
    omega

/-- `minY` is `+∞` (its initial value) or a finite value at least `lo`. -/
def minLB (lo : ℚ) (v : JSNum) : Prop :=
  v = .posInf ∨ ∃ m, v = .finite m ∧ lo ≤ m

/-- `minY` is a finite value that is at most `c`. -/
def minLE (c : ℚ) (v : JSNum) : Prop := ∃ m, v = .finite m ∧ m ≤ c

/-- `maxY` is `-∞` (its initial value) or a finite value at most `hi`. -/
def maxUB (hi : ℚ) (v : JSNum) : Prop :=
  v = .negInf ∨ ∃ m, v = .finite m ∧ m ≤ hi

/-- `maxY` is a finite value that is at least `c`. -/
def maxGE (c : ℚ) (v : JSNum) : Prop := ∃ m, v = .finite m ∧ c ≤ m

/-- The sweep keeps `minY` above a lower bound that every sample
respects. -/
theorem rangeFold_minLB (f : ℚ → JSNum) (lo : ℚ) (L : List ℚ) (st : RangeState)
    (hf : ∀ q : ℚ, ∃ m, f q = .finite m ∧ lo ≤ m)
    (h0 : minLB lo st.minY) :
    minLB lo (L.foldl (rangeStep f) st).minY := by
  induction L generalizing st with
  | nil => exact h0
  | cons x xs ih =>
    obtain ⟨m, hm, hlo⟩ := hf x
    rw [List.foldl_cons]
    apply ih
    rw [rangeStep_finite_minY f st x m hm]
    by_cases h : jltB (.finite m) st.minY = true
    · rw [if_pos h]
      exact Or.inr ⟨m, rfl, hlo⟩
    · rw [if_neg h]
      exact h0

/-- Once `minY` is a finite value at most `c`, it stays so through
finite samples. -/
theorem rangeFold_minLE (f : ℚ → JSNum) (c : ℚ) (L : List ℚ) (st : RangeState)
    (hf : ∀ q : ℚ, ∃ m, f q = .finite m)
    (h0 : minLE c st.minY) :
    minLE c (L.foldl (rangeStep f) st).minY := by
  induction L generalizing st with
  | nil => exact h0
  | cons x xs ih =>
    obtain ⟨m, hm⟩ := hf x
    obtain ⟨m0, hm0, hm0c⟩ := h0
    rw [List.foldl_cons]
    apply ih
    rw [rangeStep_finite_minY f st x m hm, hm0, jltB_fin]
    by_cases h : m < m0
    · rw [if_pos (by simpa using h)]
      exact ⟨m, rfl, by linarith⟩
    · rw [if_neg (by simpa using h)]
      exact ⟨m0, rfl, hm0c⟩

/-- A finite sample value bounds the final `minY` from above. -/
theorem rangeFold_min_attained (f : ℚ → JSNum) (L : List ℚ) (st : RangeState)
    (v : ℚ) (x₀ : ℚ) (hmem : x₀ ∈ L) (hv : f x₀ = .finite v)
    (hf : ∀ q : ℚ, ∃ m, f q = .finite m)
    (h0 : st.minY = .posInf ∨ ∃ m, st.minY = .finite m) :
    minLE v (L.foldl (rangeStep f) st).minY := by
  induction L generalizing st with
  | nil => cases hmem
  | cons x xs ih =>
    obtain ⟨m, hm⟩ := hf x
    rw [List.foldl_cons]
    rcases List.mem_cons.mp hmem with hx | hxs
    · subst hx
      rw [hv] at hm
      cases hm
      apply rangeFold_minLE f v xs _ hf
      rw [rangeStep_finite_minY f st x₀ v hv]
      rcases h0 with h0 | ⟨m0, hm0⟩
      · rw [h0]
        exact ⟨v, by simp [jltB], le_refl v⟩
      · rw [hm0, jltB_fin]
        by_cases h : v < m0
        · rw [if_pos (by simpa using h)]
          exact ⟨v, rfl, le_refl v⟩
        · rw [if_neg (by simpa using h)]
          exact ⟨m0, rfl, by linarith⟩
    · refine ih _ hxs ?_
      rw [rangeStep_finite_minY f st x m hm]
      by_cases h : jltB (.finite m) st.minY = true
      · rw [if_pos h]
        exact Or.inr ⟨m, rfl⟩
      · rw [if_neg h]
        exact h0

/-- The sweep keeps `maxY` below an upper bound that every sample
respects. -/
theorem rangeFold_maxUB (f : ℚ → JSNum) (hi : ℚ) (L : List ℚ) (st : RangeState)
    (hf : ∀ q : ℚ, ∃ m, f q = .finite m ∧ m ≤ hi)
    (h0 : maxUB hi st.maxY) :
    maxUB hi (L.foldl (rangeStep f) st).maxY := by
  induction L generalizing st with
  | nil => exact h0
  | cons x xs ih =>
    obtain ⟨m, hm, hhi⟩ := hf x
    rw [List.foldl_cons]
    apply ih
    rw [rangeStep_finite_maxY f st x m hm]
    by_cases h : jgtB (.finite m) st.maxY = true
    · rw [if_pos h]
      exact Or.inr ⟨m, rfl, hhi⟩
    · rw [if_neg h]
      exact h0

/-- Once `maxY` is a finite value at least `c`, it stays so through
finite samples. -/
theorem rangeFold_maxGE (f : ℚ → JSNum) (c : ℚ) (L : List ℚ) (st : RangeState)
    (hf : ∀ q : ℚ, ∃ m, f q = .finite m)
    (h0 : maxGE c st.maxY) :
    maxGE c (L.foldl (rangeStep f) st).maxY := by
  induction L generalizing st with
  | nil => exact h0
  | cons x xs ih =>
    obtain ⟨m, hm⟩ := hf x
    obtain ⟨m0, hm0, hm0c⟩ := h0
    rw [List.foldl_cons]
    apply ih
    rw [rangeStep_finite_maxY f st x m hm, hm0, jgtB_fin]
    by_cases h : m0 < m
    · rw [if_pos (by simpa using h)]
      exact ⟨m, rfl, by linarith⟩
    · rw [if_neg (by simpa using h)]
      exact ⟨m0, rfl, hm0c⟩

/-- A finite sample value bounds the final `maxY` from below. -/
theorem rangeFold_max_attained (f : ℚ → JSNum) (L : List ℚ) (st : RangeState)
    (v : ℚ) (x₀ : ℚ) (hmem : x₀ ∈ L) (hv : f x₀ = .finite v)
    (hf : ∀ q : ℚ, ∃ m, f q = .finite m)
    (h0 : st.maxY = .negInf ∨ ∃ m, st.maxY = .finite m) :
    maxGE v (L.foldl (rangeStep f) st).maxY := by
  induction L generalizing st with
  | nil => cases hmem
  | cons x xs ih =>
    obtain ⟨m, hm⟩ := hf x
    rw [List.foldl_cons]
    rcases List.mem_cons.mp hmem with hx | hxs
    · subst hx
      rw [hv] at hm
      cases hm
      apply rangeFold_maxGE f v xs _ hf
      rw [rangeStep_finite_maxY f st x₀ v hv]
      rcases h0 with h0 | ⟨m0, hm0⟩
      · rw [h0]
        exact ⟨v, by simp [jgtB, jltB], le_refl v⟩
      · rw [hm0, jgtB_fin]
        by_cases h : m0 < v
        · rw [if_pos (by simpa using h)]
          exact ⟨v, rfl, le_refl v⟩
        · rw [if_neg (by simpa using h)]
          exact ⟨m0, rfl, by linarith⟩
    · refine ih _ hxs ?_
      rw [rangeStep_finite_maxY f st x m hm]
      by_cases h : jgtB (.finite m) st.maxY = true
      · rw [if_pos h]
        exact Or.inr ⟨m, rfl⟩
      · rw [if_neg h]
        exact h0

/-- The range decision chain on a sine-like sweep state: no infinities
seen, at least 10 valid points, extremes inside `[−1.1, 1.1]` spanning
`[−0.9, 0.9]`, and probe values that defeat the parabola and
monotonicity tests, land in the bounded-trig branch. -/
theorem rangeDecision_trig (f : ℚ → JSNum) (st : RangeState)
    (m M a b d e2 : ℚ)
    (hInf : st.hasInfiniteValues = false)
    (hMin : st.minY = .finite m) (hMax : st.maxY = .finite M)
    (hValid : 10 ≤ st.validPoints)
    (hm1 : -1 ≤ m) (hm2 : m ≤ -9 / 10) (hM1 : 9 / 10 ≤ M) (hM2 : M ≤ 1)
    (hy0 : jsEvaluate f (-100) = .finite a)
    (hy1 : jsEvaluate f (-10) = .finite b)
    (hy2 : jsEvaluate f 0 = .finite 0)
    (hy3 : jsEvaluate f 10 = .finite d)
    (hy4 : jsEvaluate f 100 = .finite e2)
    (ha1 : a ≤ 1) (ha2 : -1 ≤ a)
    (hab : a < b) (hb0 : 0 < b) :
    rangeDecision f st = "-1 ≤ y ≤ 1" := by
  unfold rangeDecision
  rw [hInf, hMin, hMax, hy0, hy1, hy2, hy3, hy4]
  simp only [Bool.false_and, Bool.and_false, if_neg (by simp : ¬(false = true))]
  rw [isFiniteB_fin, isFiniteB_fin]
  simp only [Bool.not_true, Bool.false_or, Bool.and_true, Bool.true_and,
    isFiniteB_fin, jltB_fin, jleB_fin, jgtB_fin, jgeB_fin]
  rw [if_neg (by simp; omega)]
  rw [if_neg (by simp [jminN, jltB_fin, isFiniteB_fin]; intro h; linarith)]
  rw [if_neg (by simp [jmaxN, jgtB_fin, isFiniteB_fin]; intro h; linarith)]
  rw [if_neg (by simp; intro h1 h2; linarith)]
  rw [if_neg (by simp; intro h1 h2; linarith)]
  rw [if_neg (by
    simp [jsub, jadd, jneg, jabs, jltB_fin]
    have h1 : (100 : ℚ)⁻¹ ≤ M + -m := by linarith
    exact le_trans h1 (le_abs_self _))]
  rw [if_pos (by simp; and_intros <;> linarith)]

/-- The range decision chain on a parabola-like sweep state: no
infinities, enough valid points, the centre probe below both extreme
probes which exceed 100, and a minimum within `±0.1` of zero, land in
the "y ≥ 0" branch. -/
theorem rangeDecision_parab (f : ℚ → JSNum) (st : RangeState)
    (m M y0v bv y2v dv y4v : ℚ)
    (hInf : st.hasInfiniteValues = false)
    (hMin : st.minY = .finite m) (hMax : st.maxY = .finite M)
    (hValid : 10 ≤ st.validPoints)
    (hm1 : -1 / 10 ≤ m) (hm2 : m ≤ 1 / 10)
    (hy0 : jsEvaluate f (-100) = .finite y0v)
    (hy1 : jsEvaluate f (-10) = .finite bv)
    (hy2 : jsEvaluate f 0 = .finite y2v)
    (hy3 : jsEvaluate f 10 = .finite dv)
    (hy4 : jsEvaluate f 100 = .finite y4v)
    (h0big : 100 < y0v) (h4big : 100 < y4v)
    (hc0 : y2v ≤ y0v) (hc4 : y2v ≤ y4v) :
    rangeDecision f st = "y ≥ 0" := by
  unfold rangeDecision
  rw [hInf, hMin, hMax, hy0, hy1, hy2, hy3, hy4]
  simp only [Bool.false_and, Bool.and_false, if_neg (by simp : ¬(false = true))]
  rw [isFiniteB_fin, isFiniteB_fin]
  simp only [Bool.not_true, Bool.false_or, Bool.and_true, Bool.true_and,
    isFiniteB_fin, jltB_fin, jleB_fin, jgtB_fin, jgeB_fin]
  rw [if_neg (by simp; omega)]
  rw [if_pos (by
    simp [jminN, jltB_fin, isFiniteB_fin]
    refine ⟨⟨by linarith, by linarith⟩, ?_⟩
    rw [if_neg (by simp [JSNum.isNaNB])]
    by_cases h : y4v < y0v
    · rw [if_pos h, jleB_fin]
      simpa using hc4
    · rw [if_neg h, jleB_fin]
      simpa using hc0)]
  rw [if_pos (by simp; and_intros <;> linarith)]

/-- `parse` succeeds once the normalized text compiles and some probe
value evaluates to a finite number. -/
theorem parse_ok_of_probe (O : MathOracle) (raw : String) (ast : Expr) (t : ℚ)
    (hc : compileAst raw = .ok ast) (ht : t ∈ testValues)
    (hfin : (funcEval O ast t).isFiniteB = true) : parse O raw = .ok ast := by
  unfold parse
  rw [hc]
  dsimp only
  rw [if_pos (List.any_eq_true.mpr ⟨t, ht, hfin⟩)]

/-- The range sweep points are the 1001 values `-50 + k/10`. -/
theorem rangeSweepPoints_length : rangeSweepPoints.length = 1001 := by
  unfold rangeSweepPoints
  rw [length_sweepPoints (-50) (1 / 10) 50 (by norm_num) (by norm_num)]
  norm_num
  rfl

/-- `-8/5` (= -1.6) is the 484th range sweep point. -/
theorem neg85_mem_rangeSweepPoints : (-8 / 5 : ℚ) ∈ rangeSweepPoints := by
  have h : (-50 : ℚ) + (484 : ℕ) * (1 / 10) = -8 / 5 := by norm_num
  unfold rangeSweepPoints
  rw [← h]
  exact mem_sweepPoints (-50) (1 / 10) 50 484 (by norm_num) (by norm_num)
    (by norm_num)

/-- `8/5` (= 1.6) is the 516th range sweep point. -/
theorem pos85_mem_rangeSweepPoints : (8 / 5 : ℚ) ∈ rangeSweepPoints := by
  have h : (-50 : ℚ) + (516 : ℕ) * (1 / 10) = 8 / 5 := by norm_num
  unfold rangeSweepPoints
  rw [← h]
  exact mem_sweepPoints (-50) (1 / 10) 50 516 (by norm_num) (by norm_num)
    (by norm_num)

/-- `0` is the 500th range sweep point. -/
theorem zero_mem_rangeSweepPoints : (0 : ℚ) ∈ rangeSweepPoints := by
  have h : (-50 : ℚ) + (500 : ℕ) * (1 / 10) = 0 := by norm_num
  unfold rangeSweepPoints
  rw [← h]
  exact mem_sweepPoints (-50) (1 / 10) 50 500 (by norm_num) (by norm_num)
    (by norm_num)

/-- `-50` is the first range sweep point. -/
theorem neg50_mem_rangeSweepPoints : (-50 : ℚ) ∈ rangeSweepPoints := by
  have h : (-50 : ℚ) + (0 : ℕ) * (1 / 10) = -50 := by norm_num
  unfold rangeSweepPoints
  rw [← h]
  exact mem_sweepPoints (-50) (1 / 10) 50 0 (by norm_num) (by norm_num)
    (by norm_num)

/-- C5: The Range Analyzer sweeps x ∈ [−50, 50] in steps of 0.1 (1001
samples, `rangeSweepPoints`), tracking min/max of finite outputs and
signed-infinity flags (`rangeStep`), and applies the decision policy of
`rangeDecision` in source order.  In particular, for every `Math` library
whose sine is total with values in [−1, 1], is 0 at 0, is at most −0.9 at
−1.6 and at least 0.9 at 1.6, and satisfies sin(−100) < sin(−10) with
sin(−10) > 0 (all true of the real sine: sin(−100) ≈ 0.506,
sin(−10) ≈ 0.544), the evaluator compiled from "sin(x)" analyzes to
"−1 ≤ y ≤ 1"; and the evaluator compiled from "x^2" analyzes to
"y ≥ 0". -/
theorem range_sin_and_square (O : MathOracle) (a b : ℚ)
    (hfin : ∀ q : ℚ, ∃ m, O.sin q = .finite m ∧ -1 ≤ m ∧ m ≤ 1)
    (hzero : O.sin 0 = .finite 0)
    (hlo : ∃ s, O.sin (-8 / 5) = .finite s ∧ s ≤ -9 / 10)
    (hhi : ∃ s, O.sin (8 / 5) = .finite s ∧ 9 / 10 ≤ s)
    (ha : O.sin (-100) = .finite a) (hb : O.sin (-10) = .finite b)
    (hab : a < b) (hb0 : 0 < b) :
    parse O "sin(x)" = .ok astSin ∧
    analyzeRange (funcEval O astSin) = "-1 ≤ y ≤ 1" ∧
    parse O "x^2" = .ok astSq ∧
    analyzeRange (funcEval O astSq) = "y ≥ 0" := by
  have hfe : funcEval O astSin = fun q => O.sin q := funext fun q => rfl
  have hfe2 : funcEval O astSq = fun q => JSNum.finite (q ^ 2) :=
    funext fun q => rfl
  have hfin1 : ∀ q : ℚ, ∃ m, (fun q => O.sin q) q = .finite m := by
    intro q
    obtain ⟨m, hm, _, _⟩ := hfin q
    exact ⟨m, hm⟩
  refine ⟨?_, ?_, ?_, ?_⟩
  · refine parse_ok_of_probe O "sin(x)" astSin 0 rfl (by decide) ?_
    show (O.sin 0).isFiniteB = true
    rw [hzero]
    rfl
  · rw [hfe]
    unfold analyzeRange
    obtain ⟨hInf, _, _, hValid⟩ :=
      rangeFold_flags (fun q => O.sin q) rangeSweepPoints rangeInit hfin1
    obtain ⟨s, hs, hs9⟩ := hlo
    obtain ⟨s2, hs2, hs29⟩ := hhi
    obtain ⟨m, hmin, hms⟩ :=
      rangeFold_min_attained (fun q => O.sin q) rangeSweepPoints rangeInit s
        (-8 / 5) neg85_mem_rangeSweepPoints hs hfin1 (Or.inl rfl)
    obtain ⟨M, hmax, hMs⟩ :=
      rangeFold_max_attained (fun q => O.sin q) rangeSweepPoints rangeInit s2
        (8 / 5) pos85_mem_rangeSweepPoints hs2 hfin1 (Or.inl rfl)
    have hm1 : -1 ≤ m := by
      rcases rangeFold_minLB (fun q => O.sin q) (-1) rangeSweepPoints rangeInit
          (by
            intro q
            obtain ⟨v, hv, h1, _⟩ := hfin q
            exact ⟨v, hv, h1⟩) (Or.inl rfl) with h | ⟨m2, hm2, hl⟩
      · rw [hmin] at h
        cases h
      · rw [hmin] at hm2
        cases hm2
        exact hl
    have hM2 : M ≤ 1 := by
      rcases rangeFold_maxUB (fun q => O.sin q) 1 rangeSweepPoints rangeInit
          (by
            intro q
            obtain ⟨v, hv, _, h2⟩ := hfin q
            exact ⟨v, hv, h2⟩) (Or.inl rfl) with h | ⟨m2, hm2, hl⟩
      · rw [hmax] at h
        cases h
      · rw [hmax] at hm2
        cases hm2
        exact hl
    obtain ⟨d, hd, _, _⟩ := hfin 10
    obtain ⟨e2, he2f, _, _⟩ := hfin 100
    obtain ⟨a2, ha2f, ha2l, ha2u⟩ := hfin (-100)
    have haa : a2 = a := by
      rw [ha] at ha2f
      cases ha2f
      rfl
    refine rangeDecision_trig (fun q => O.sin q) _ m M a b d e2 hInf hmin hmax
      ?_ hm1 (by linarith) (by linarith) hM2
      ((jsEvaluate_eq _ _).trans ha) ((jsEvaluate_eq _ _).trans hb)
      ((jsEvaluate_eq _ _).trans hzero) ((jsEvaluate_eq _ _).trans hd)
      ((jsEvaluate_eq _ _).trans he2f)
      (by rw [← haa]; exact ha2u) (by rw [← haa]; exact ha2l) hab hb0
    rw [hValid, rangeSweepPoints_length]
    norm_num
  · exact parse_ok_of_probe O "x^2" astSq 0 rfl (by decide) rfl
  · rw [hfe2]
    unfold analyzeRange
    have hfin2 : ∀ q : ℚ, ∃ m, (fun q => JSNum.finite (q ^ 2)) q = .finite m :=
      fun q => ⟨q ^ 2, rfl⟩
    obtain ⟨hInf, _, _, hValid⟩ :=
      rangeFold_flags (fun q => JSNum.finite (q ^ 2)) rangeSweepPoints
        rangeInit hfin2
    obtain ⟨m, hmin, hms⟩ :=
      rangeFold_min_attained (fun q => JSNum.finite (q ^ 2)) rangeSweepPoints
        rangeInit 0 0 zero_mem_rangeSweepPoints (by norm_num) hfin2 (Or.inl rfl)
    obtain ⟨M, hmax, _⟩ :=
      rangeFold_max_attained (fun q => JSNum.finite (q ^ 2)) rangeSweepPoints
        rangeInit 2500 (-50) neg50_mem_rangeSweepPoints (by norm_num) hfin2
        (Or.inl rfl)
    have hm1 : 0 ≤ m := by
      rcases rangeFold_minLB (fun q => JSNum.finite (q ^ 2)) 0 rangeSweepPoints
          rangeInit (fun q => ⟨q ^ 2, rfl, sq_nonneg q⟩) (Or.inl rfl) with
        h | ⟨m2, hm2, hl⟩
      · rw [hmin] at h
        cases h
      · rw [hmin] at hm2
        cases hm2
        exact hl
    refine rangeDecision_parab (fun q => JSNum.finite (q ^ 2)) _ m M 10000 100
      0 100 10000 hInf hmin hmax ?_ (by linarith) (by linarith)
      ((jsEvaluate_eq _ _).trans (by norm_num))
      ((jsEvaluate_eq _ _).trans (by norm_num))
      ((jsEvaluate_eq _ _).trans (by norm_num))
      ((jsEvaluate_eq _ _).trans (by norm_num))
      ((jsEvaluate_eq _ _).trans (by norm_num))
      (by norm_num) (by norm_num) (by norm_num) (by norm_num)
    rw [hValid, rangeSweepPoints_length]
    norm_num

/-- A concrete sine-like oracle satisfying every hypothesis of
`range_sin_and_square`: bounded by [−1, 1] everywhere, zero at 0, −1 at
−1.6, 1 at 1.6, 1/4 at −100 and 1/2 at −10. -/
def sinWitness : MathOracle where
  sin := fun q =>
    .finite (if q = -8 / 5 then -1
      else if q = 8 / 5 then 1
      else if q = -100 then 1 / 4
      else if q = -10 then 1 / 2
      else 0)
  cos := fun _ => .nan
  tan := fun _ => .nan
  log10 := fun _ => .nan
  ln := fun _ => .nan
  sqrt := fun _ => .nan
  exp := fun _ => .nan
  powq := fun _ _ => .nan

/-- Witness for C5: the hypotheses of `range_sin_and_square` are
satisfiable, discharged at the concrete oracle `sinWitness`. -/
theorem range_sin_and_square_witness :
    parse sinWitness "sin(x)" = .ok astSin ∧
    analyzeRange (funcEval sinWitness astSin) = "-1 ≤ y ≤ 1" ∧
    parse sinWitness "x^2" = .ok astSq ∧
    analyzeRange (funcEval sinWitness astSq) = "y ≥ 0" := by
  refine range_sin_and_square sinWitness (1 / 4) (1 / 2) ?_ (by decide)
    ⟨-1, by decide, by norm_num⟩ ⟨1, by decide, by norm_num⟩ (by decide)
    (by decide) (by norm_num) (by norm_num)
  intro q
  refine ⟨_, rfl, ?_, ?_⟩ <;> split_ifs <;> norm_num

/-- C9: For every evaluator, the vertical-line test over the sample
points {−5, −2, 0, 1, 3, 5} succeeds and the AnalysisReport's
`isFunction` flag is always true: `evaluate` always returns a
number-typed value (the NaN sentinel on failure), so the failure branch
of the test is unreachable. -/
theorem vertical_line_always_true :
    isFunctionPoints = [-5, -2, 0, 1, 3, 5] ∧
    (∀ f : ℚ → JSNum, isFunction f = true) ∧
    (∀ (f : ℚ → JSNum) (e : String), (analyzeFunction f e).isFunction = true) := by
  have hisf : ∀ f : ℚ → JSNum, isFunction f = true := by
    intro f
    simp [isFunction, jsTypeof]
  refine ⟨rfl, hisf, ?_⟩
  intro f e
  unfold analyzeFunction
  rw [hisf f]
  simp

/-- C1 (corrected): `evaluate` (graph.js lines 166-177) guarantees only
the shape of its result.  Over every outcome a compiled call can hand it
— a returned number, a returned non-number value, or a thrown error — it
returns a number: the call's own number unchanged (NaN and the signed
infinities included) and NaN in the other two cases, so the result is
always a finite rational, a signed infinity, or NaN.  The model's
`jsEvaluate` is exactly this coercion at a number outcome.  A signed
infinity passes through: the evaluator compiled from "1/x" returns +∞
at 0 (see the counterexample; `analyzeRange`, graph.js lines 411-414,
relies on receiving it).  Termination, freedom from external mutation
and determinism are properties of the compiled function, which
`evaluate` leaves untouched and `new Function` does not restrict to the
arithmetic fragment — they are not re-asserted here. -/
theorem evaluate_coercion_amended :
    (∀ v : JSNum, evaluateOutcome (.num v) = v) ∧
    evaluateOutcome .nonNumber = .nan ∧
    evaluateOutcome .thrown = .nan ∧
    (∀ r : CallOutcome, (∃ q, evaluateOutcome r = .finite q) ∨
      evaluateOutcome r = .posInf ∨ evaluateOutcome r = .negInf ∨
      evaluateOutcome r = .nan) ∧
    (∀ (f : ℚ → JSNum) (x : ℚ),
      jsEvaluate f x = evaluateOutcome (.num (f x))) ∧
    parse mathDefault "1/x" = .ok astInv ∧
    jsEvaluate (funcEval mathDefault astInv) 0 = .posInf := by
  refine ⟨fun _ => rfl, rfl, rfl, ?_, fun _ _ => rfl, rfl, rfl⟩
  intro r
  cases r with
  | num v =>
    cases v with
    | finite q => exact Or.inl ⟨q, rfl⟩
    | posInf => exact Or.inr (Or.inl rfl)
    | negInf => exact Or.inr (Or.inr (Or.inl rfl))
    | nan => exact Or.inr (Or.inr (Or.inr rfl))
  | nonNumber => exact Or.inr (Or.inr (Or.inr rfl))
  | thrown => exact Or.inr (Or.inr (Or.inr rfl))

/-- C1 counterexample: the evaluator compiled from "1/x" returns the
signed infinity `+∞` at x = 0 — a value that is neither finite nor the
NaN sentinel — refuting "never any other value (in particular never a
signed infinity)". -/
theorem evaluate_returns_infinity_cex :
    parse mathDefault "1/x" = .ok astInv ∧
    jsEvaluate (funcEval mathDefault astInv) 0 = .posInf ∧
    (jsEvaluate (funcEval mathDefault astInv) 0).isFiniteB = false ∧
    jsEvaluate (funcEval mathDefault astInv) 0 ≠ .nan :=
  ⟨rfl, rfl, rfl, by decide⟩

/-- C10: constant substitution (word-boundary matched) runs before
implicit-multiplication insertion, so in "2pi" the constant is never
substituted (no boundary between `2` and `p`): the normalizer emits
"2*pi" with the identifier `pi` unresolved, every probe evaluates to the
NaN sentinel, and compilation fails with the unevaluable error — while
"2*pi" substitutes the constant and compiles. -/
theorem constant_before_implicit_mult :
    normalize "2pi" = "2*pi" ∧
    (∀ O : MathOracle, parse O "2pi" = .error .notEvaluable) ∧
    (∀ (O : MathOracle) (t : ℚ), funcEval O astTwoPiBad t = .nan) ∧
    normalize "2*pi" = "2*3.141592653589793" ∧
    (∀ O : MathOracle, parse O "2*pi" = .ok astTwoPi) := by
  exact ⟨rfl, fun O => rfl, fun O t => rfl, rfl, fun O => rfl⟩

/-- C3 (amended): compile fails with `EmptyExpressionError` on empty or
whitespace-only input, with the parenthesis `SyntaxError` when the
left-to-right counter goes negative or ends nonzero (so "(x+1" and
"x+1)" are both rejected), with `UnevaluableExpressionError` when no
probe in {0, 1, −1, 0.5, 2} yields a finite number — and, additionally
to the original claim, with a fourth error (`Invalid expression`, from
`new Function` itself) when the normalized text is not a valid JS
expression, as for "x+"; otherwise it returns an evaluator.  Every
outcome is one of these five. -/
theorem compile_error_modes_amended :
    (∀ O : MathOracle, parse O "" = .error .emptyExpr) ∧
    (∀ O : MathOracle, parse O "   " = .error .emptyExpr) ∧
    (∀ O : MathOracle, parse O "(x+1" = .error .mismatchedParens) ∧
    (∀ O : MathOracle, parse O "x+1)" = .error .mismatchedParens) ∧
    (∀ O : MathOracle, parse O "x+" = .error .badJs) ∧
    (∀ O : MathOracle, parse O "1/0" = .error .notEvaluable) ∧
    (∀ (O : MathOracle) (raw : String),
      (∃ ast, parse O raw = .ok ast) ∨ parse O raw = .error .emptyExpr ∨
      parse O raw = .error .mismatchedParens ∨ parse O raw = .error .badJs ∨
      parse O raw = .error .notEvaluable) := by
  refine ⟨fun O => rfl, fun O => rfl, fun O => rfl, fun O => rfl, fun O => rfl,
    fun O => rfl, ?_⟩
  intro O raw
  cases h : parse O raw with
  | ok ast => exact Or.inl ⟨ast, rfl⟩
  | error err =>
    cases err with
    | emptyExpr => exact Or.inr (Or.inl rfl)
    | mismatchedParens => exact Or.inr (Or.inr (Or.inl rfl))
    | badJs => exact Or.inr (Or.inr (Or.inr (Or.inl rfl)))
    | notEvaluable => exact Or.inr (Or.inr (Or.inr (Or.inr rfl)))

/-- C3 counterexample: compiling "x+" — balanced parentheses, non-empty —
fails with the `Invalid expression` error from `new Function`, which is
none of the three errors the claim allows. -/
theorem compile_fourth_error_cex :
    parse mathDefault "x+" = .error .badJs ∧
    CompileError.badJs ≠ .emptyExpr ∧
    CompileError.badJs ≠ .mismatchedParens ∧
    CompileError.badJs ≠ .notEvaluable :=
  ⟨rfl, by decide, by decide, by decide⟩

/-- A symmetry sweep over points whose samples are all non-finite leaves
the counters untouched. -/
theorem symFold_skip (f : ℚ → JSNum) (L : List ℚ) (st : ℕ × ℕ × ℕ)
    (h : ∀ x ∈ L, (jsEvaluate f x).isFiniteB = false) :
    L.foldl (symStep f) st = st := by
  induction L generalizing st with
  | nil => rfl
  | cons x xs ih =>
    rw [List.foldl_cons]
    have hx := h x (List.mem_cons_self x xs)
    have hstep : symStep f st x = st := by
      unfold symStep
      by_cases h0 : x = 0
      · rw [if_pos h0]
      · rw [if_neg h0]
        rw [if_pos (by rw [hx]; simp)]
    rw [hstep]
    exact ih st (fun y hy => h y (List.mem_cons_of_mem x hy))

/-- C7: the Symmetry Analyzer samples the 8 points ±3, ±2, ±1, ±0.5,
counts a finite pair toward even when `|f(−x) − f(x)| < 1e-10` and
toward odd when `|f(−x) + f(x)| < 1e-10`, classifying at the 80%
threshold (`symStep`/`checkSymmetry`); when no sample is finite both
classifications are false; and the evaluators compiled from "x^2",
"x^3" and "x+1" classify as even, odd and neither respectively. -/
theorem symmetry_classification :
    symmetryPoints = [-3, -2, -1, -1 / 2, 1 / 2, 1, 2, 3] ∧
    (∀ O : MathOracle,
      parse O "x^2" = .ok astSq ∧
      checkSymmetry (funcEval O astSq) = { isEven := true, isOdd := false }) ∧
    (∀ O : MathOracle,
      parse O "x^3" = .ok astCube ∧
      checkSymmetry (funcEval O astCube) = { isEven := false, isOdd := true }) ∧
    (∀ O : MathOracle,
      parse O "x+1" = .ok astXp1 ∧
      checkSymmetry (funcEval O astXp1) = { isEven := false, isOdd := false }) ∧
    (∀ f : ℚ → JSNum, (∀ x ∈ symmetryPoints, (jsEvaluate f x).isFiniteB = false) →
      checkSymmetry f = { isEven := false, isOdd := false }) := by
  refine ⟨rfl, ?_, ?_, ?_, ?_⟩
  · intro O
    refine ⟨rfl, ?_⟩
    rw [show funcEval O astSq = fun q => JSNum.finite (q ^ 2) from
      funext fun q => rfl]
    decide
  · intro O
    refine ⟨rfl, ?_⟩
    rw [show funcEval O astCube = fun q => JSNum.finite (q ^ 3) from
      funext fun q => rfl]
    decide
  · intro O
    refine ⟨rfl, ?_⟩
    rw [show funcEval O astXp1 = fun q => JSNum.finite (q + 1) from
      funext fun q => rfl]
    decide
  · intro f h
    unfold checkSymmetry
    rw [symFold_skip f symmetryPoints (0, 0, 0) h]
    rfl

/-- C8: the Injectivity Analyzer sweeps the 21 points −5, −4.5, …, 5,
fails as soon as a new finite sample is within 1e-8 of a collected one,
and succeeds only with more than 5 finite samples and no near-duplicate
(`isOneToOneGo`); the evaluator compiled from "x" is one-to-one and the
one compiled from "x^2" is not. -/
theorem injectivity_classification :
    oneToOnePoints.length = 21 ∧
    (∀ O : MathOracle,
      parse O "x" = .ok astX ∧ isOneToOne (funcEval O astX) = true) ∧
    (∀ O : MathOracle,
      parse O "x^2" = .ok astSq ∧ isOneToOne (funcEval O astSq) = false) := by
  refine ⟨by decide, ?_, ?_⟩
  · intro O
    refine ⟨rfl, ?_⟩
    rw [show funcEval O astX = fun q => JSNum.finite q from funext fun q => rfl]
    decide
  · intro O
    refine ⟨rfl, ?_⟩
    rw [show funcEval O astSq = fun q => JSNum.finite (q ^ 2) from
      funext fun q => rfl]
    decide

/-- C6: the Domain Analyzer matches textual restriction patterns in
source order — sqrt, then log/ln, then a `/x` denominator, then the
restricted trig forms — and falls back to the numeric sweep over
[−20, 20] step 0.1 only when no pattern matches (`analyzeDomain`): the
expressions "sqrt(x)", "1/x" and "ln(x)" hit their patterns (for every
evaluator), "sqrt(1/x)" shows sqrt is checked before the denominator
pattern, and the patternless "x+1" reaches the sweep and reports all
real numbers. -/
theorem domain_analyzer_patterns :
    (∀ f : ℚ → JSNum, analyzeDomain f "sqrt(x)" = "x ≥ 0") ∧
    (∀ f : ℚ → JSNum, analyzeDomain f "1/x" = "x ≠ 0") ∧
    (∀ f : ℚ → JSNum, analyzeDomain f "ln(x)" = "x > 0") ∧
    (∀ f : ℚ → JSNum, analyzeDomain f "sqrt(1/x)" = "Expression under √ must be ≥ 0") ∧
    (∀ O : MathOracle, parse O "x+1" = .ok astXp1) ∧
    analyzeDomain (funcEval mathDefault astXp1) "x+1" = "All real numbers (ℝ)" := by
  refine ⟨fun f => rfl, fun f => rfl, fun f => rfl, fun f => rfl,
    fun O => rfl, ?_⟩
  rw [show funcEval mathDefault astXp1 = fun q => JSNum.finite (q + 1) from
    funext fun q => rfl]
  show domainSweep (fun q => JSNum.finite (q + 1)) = "All real numbers (ℝ)"
  decide

/-- C2 (amended): for csc, sec and cot applied to a parenthesized
argument that contains no nested closing parenthesis, the Normalizer
rewrites the call as 1/sin, 1/cos, 1/tan of the full argument, and the
compiled evaluator is the very same as the one compiled from the
literal 1/sin(A), 1/cos(A), 1/tan(A) text — the compile results are
equal, hence the evaluators agree at every x.  (For an argument with a
nested ')' the `[^)]+` capture truncates at the first ')': see the
counterexample.)  The hypotheses ask only that the trig value at the
first probe's argument is finite and nonzero, so that compilation's
probe test passes. -/
theorem recip_rewrite_flat_amended (O : MathOracle) (s c t : ℚ)
    (hs : O.sin 1 = .finite s) (hs0 : s ≠ 0)
    (hc : O.cos 1 = .finite c) (hc0 : c ≠ 0)
    (ht : O.tan 1 = .finite t) (ht0 : t ≠ 0) :
    normalize "csc(2*x+1)" = "(1/Math.sin(2*x+1))" ∧
    parse O "csc(2*x+1)" = parse O "1/sin(2*x+1)" ∧
    parse O "csc(2*x+1)" = .ok astRecipFlat ∧
    normalize "sec(2*x+1)" = "(1/Math.cos(2*x+1))" ∧
    parse O "sec(2*x+1)" = parse O "1/cos(2*x+1)" ∧
    parse O "sec(2*x+1)" = .ok astRecipFlatSec ∧
    normalize "cot(2*x+1)" = "(1/Math.tan(2*x+1))" ∧
    parse O "cot(2*x+1)" = parse O "1/tan(2*x+1)" ∧
    parse O "cot(2*x+1)" = .ok astRecipFlatCot := by
  have hfinS : (funcEval O astRecipFlat 0).isFiniteB = true := by
    have h1 : funcEval O astRecipFlat 0 = jdiv (.finite 1) (O.sin 1) := rfl
    rw [h1, hs]
    simp only [jdiv]
    rw [if_neg hs0]
    rfl
  have hfinC : (funcEval O astRecipFlatSec 0).isFiniteB = true := by
    have h1 : funcEval O astRecipFlatSec 0 = jdiv (.finite 1) (O.cos 1) := rfl
    rw [h1, hc]
    simp only [jdiv]
    rw [if_neg hc0]
    rfl
  have hfinT : (funcEval O astRecipFlatCot 0).isFiniteB = true := by
    have h1 : funcEval O astRecipFlatCot 0 = jdiv (.finite 1) (O.tan 1) := rfl
    rw [h1, ht]
    simp only [jdiv]
    rw [if_neg ht0]
    rfl
  have hS := parse_ok_of_probe O "csc(2*x+1)" astRecipFlat 0 rfl (by decide) hfinS
  have hS2 := parse_ok_of_probe O "1/sin(2*x+1)" astRecipFlat 0 rfl (by decide) hfinS
  have hC := parse_ok_of_probe O "sec(2*x+1)" astRecipFlatSec 0 rfl (by decide) hfinC
  have hC2 := parse_ok_of_probe O "1/cos(2*x+1)" astRecipFlatSec 0 rfl (by decide) hfinC
  have hT := parse_ok_of_probe O "cot(2*x+1)" astRecipFlatCot 0 rfl (by decide) hfinT
  have hT2 := parse_ok_of_probe O "1/tan(2*x+1)" astRecipFlatCot 0 rfl (by decide) hfinT
  exact ⟨rfl, hS.trans hS2.symm, hS, rfl, hC.trans hC2.symm, hC, rfl,
    hT.trans hT2.symm, hT⟩

/-- A concrete oracle whose sine, cosine and tangent are the constant 1,
satisfying the probe hypotheses of `recip_rewrite_flat_amended`. -/
def trigOnes : MathOracle where
  sin := fun _ => .finite 1
  cos := fun _ => .finite 1
  tan := fun _ => .finite 1
  log10 := fun _ => .nan
  ln := fun _ => .nan
  sqrt := fun _ => .nan
  exp := fun _ => .nan
  powq := fun _ _ => .nan

/-- Witness for C2 (amended): discharged at the concrete oracle
`trigOnes`. -/
theorem recip_rewrite_flat_witness :
    normalize "csc(2*x+1)" = "(1/Math.sin(2*x+1))" ∧
    parse trigOnes "csc(2*x+1)" = parse trigOnes "1/sin(2*x+1)" ∧
    parse trigOnes "csc(2*x+1)" = .ok astRecipFlat ∧
    normalize "sec(2*x+1)" = "(1/Math.cos(2*x+1))" ∧
    parse trigOnes "sec(2*x+1)" = parse trigOnes "1/cos(2*x+1)" ∧
    parse trigOnes "sec(2*x+1)" = .ok astRecipFlatSec ∧
    normalize "cot(2*x+1)" = "(1/Math.tan(2*x+1))" ∧
    parse trigOnes "cot(2*x+1)" = parse trigOnes "1/tan(2*x+1)" ∧
    parse trigOnes "cot(2*x+1)" = .ok astRecipFlatCot :=
  recip_rewrite_flat_amended trigOnes 1 1 1 rfl (by norm_num) rfl (by norm_num)
    rfl (by norm_num)

/-- C2 counterexample: for "csc(sin(x)+1)" — whose argument contains a
nested ')' — the Normalizer's `[^)]+` capture stops at the first ')',
rewriting to `(1/Math.sin(Math.sin(x))+1)`, i.e. `1/sin(sin(x)) + 1`,
not `1/sin(sin(x)+1)`; under the concrete `Math` interpretation
`oracleT` (sin q = q − q³/6, which like the real sine is 0 at 0 and
nonzero at 1) the two compiled evaluators disagree at x = 0: the
mis-rewritten one yields +∞, the spec-described one 6/5. -/
theorem csc_nested_argument_cex :
    normalize "csc(sin(x)+1)" = "(1/Math.sin(Math.sin(x))+1)" ∧
    normalize "1/sin(sin(x)+1)" = "1/Math.sin(Math.sin(x)+1)" ∧
    parse oracleT "csc(sin(x)+1)" = .ok astCscNested ∧
    parse oracleT "1/sin(sin(x)+1)" = .ok astCscNestedSpec ∧
    jsEvaluate (funcEval oracleT astCscNested) 0 = .posInf ∧
    jsEvaluate (funcEval oracleT astCscNestedSpec) 0 = .finite (6 / 5) ∧
    jsEvaluate (funcEval oracleT astCscNested) 0 ≠
      jsEvaluate (funcEval oracleT astCscNestedSpec) 0 :=
  ⟨rfl, rfl, rfl, rfl, rfl, by decide, by decide⟩

/-- Splitting `range` for piecewise evaluation of long sweeps. -/
theorem range_split (a b : ℕ) :
    List.range (a + b) = List.range a ++ List.range' a b 1 := by
  rw [List.range_eq_range', List.range_eq_range']
  have h := List.range'_append 0 a b 1
  simp at h
  rw [Nat.add_comm b a] at h
  exact h.symm

/-- The pointwise value of the evaluator compiled from "1/x": the
reciprocal, with the pole at 0 mapped to JS `Infinity` (1/0). -/
def invEval (q : ℚ) : JSNum := if q = 0 then .posInf else .finite (1 / q)

/-- The compiled AST of "1/x" evaluates as `invEval` at every input. -/
theorem funcEval_astInv : funcEval mathDefault astInv = invEval := by
  funext q
  have h1 : funcEval mathDefault astInv q = jdiv (.finite 1) (.finite q) := rfl
  rw [h1]
  unfold invEval
  by_cases h : q = 0
  · rw [if_pos h, h]
    decide
  · rw [if_neg h]
    simp [jdiv, h]

/-- A fold of `asymStep` over points at which no detection method fires
leaves the accumulator unchanged. -/
theorem asymFold_skip (f : ℚ → JSNum) (s : ℚ) (thr : JSNum) (L : List ℚ)
    (acc : List ℚ) (h : ∀ x ∈ L, asymCond f s thr x = false) :
    L.foldl (asymStep f s thr) acc = acc := by
  induction L generalizing acc with
  | nil => rfl
  | cons x xs ih =>
    rw [List.foldl_cons]
    have hstep : asymStep f s thr acc x = acc := by
      unfold asymStep
      rw [if_neg (by rw [h x (List.mem_cons_self x xs)]; simp)]
    rw [hstep]
    exact ih acc (fun y hy => h y (List.mem_cons_of_mem x hy))

/-- No asymptote method fires on the reciprocal at a sample whose whole
1/100-neighbourhood is negative: the three values are finite and
negative, so method 1's non-finite test fails, method 2's sign test
compares −1 with −1, and method 3's straddle needs a neighbour above
the threshold 10. -/
theorem asymCond_invEval_neg (x : ℚ) (h : x + 1 / 100 < 0) :
    asymCond invEval (1 / 100) (.finite 10) x = false := by
  have hx : x < 0 := by linarith
  have hl : x - 1 / 100 < 0 := by linarith
  have hyl : (1 : ℚ) / (x - 1 / 100) < 0 := one_div_neg.mpr hl
  have hyr : (1 : ℚ) / (x + 1 / 100) < 0 := one_div_neg.mpr h
  have ey : jsEvaluate invEval x = .finite (1 / x) := by
    rw [jsEvaluate_eq]
    unfold invEval
    rw [if_neg hx.ne]
  have eyl : jsEvaluate invEval (x - 1 / 100) = .finite (1 / (x - 1 / 100)) := by
    rw [jsEvaluate_eq]
    unfold invEval
    rw [if_neg hl.ne]
  have eyr : jsEvaluate invEval (x + 1 / 100) = .finite (1 / (x + 1 / 100)) := by
    rw [jsEvaluate_eq]
    unfold invEval
    rw [if_neg h.ne]
  have s1 : jsign (JSNum.finite (1 / (x - 1 / 100))) = .finite (-1) := by
    simp only [jsign]
    rw [if_neg hyl.ne, if_neg (not_lt.mpr hyl.le)]
  have s2 : jsign (JSNum.finite (1 / (x + 1 / 100))) = .finite (-1) := by
    simp only [jsign]
    rw [if_neg hyr.ne, if_neg (not_lt.mpr hyr.le)]
  have g1 : jgtB (JSNum.finite (1 / (x - 1 / 100))) (JSNum.finite 10) = false := by
    simp only [jgtB, jltB, decide_eq_false_iff_not, not_lt]
    linarith
  have g2 : jgtB (JSNum.finite (1 / (x + 1 / 100))) (JSNum.finite 10) = false := by
    simp only [jgtB, jltB, decide_eq_false_iff_not, not_lt]
    linarith
  have jn : jneqB (JSNum.finite (-1)) (JSNum.finite (-1)) = false := by decide
  simp only [asymCond, ey, eyl, eyr, s1, s2, g1, g2, jn, JSNum.isFiniteB,
    Bool.not_true, Bool.false_and, Bool.and_false, Bool.true_and,
    Bool.false_or, Bool.or_false, Bool.or_self]

/-- No asymptote method fires on the reciprocal at a sample whose whole
1/100-neighbourhood is positive: the three values are finite and
positive, so method 1's non-finite test fails, method 2's sign test
compares 1 with 1, and method 3's straddle needs a neighbour below
−10. -/
theorem asymCond_invEval_pos (x : ℚ) (h : 0 < x - 1 / 100) :
    asymCond invEval (1 / 100) (.finite 10) x = false := by
  have hx : 0 < x := by linarith
  have hr : 0 < x + 1 / 100 := by linarith
  have hyl : (0 : ℚ) < 1 / (x - 1 / 100) := one_div_pos.mpr h
  have hyr : (0 : ℚ) < 1 / (x + 1 / 100) := one_div_pos.mpr hr
  have ey : jsEvaluate invEval x = .finite (1 / x) := by
    rw [jsEvaluate_eq]
    unfold invEval
    rw [if_neg hx.ne']
  have eyl : jsEvaluate invEval (x - 1 / 100) = .finite (1 / (x - 1 / 100)) := by
    rw [jsEvaluate_eq]
    unfold invEval
    rw [if_neg h.ne']
  have eyr : jsEvaluate invEval (x + 1 / 100) = .finite (1 / (x + 1 / 100)) := by
    rw [jsEvaluate_eq]
    unfold invEval
    rw [if_neg hr.ne']
  have s1 : jsign (JSNum.finite (1 / (x - 1 / 100))) = .finite 1 := by
    simp only [jsign]
    rw [if_neg hyl.ne', if_pos hyl]
  have s2 : jsign (JSNum.finite (1 / (x + 1 / 100))) = .finite 1 := by
    simp only [jsign]
    rw [if_neg hyr.ne', if_pos hyr]
  have l1 : jltB (JSNum.finite (1 / (x - 1 / 100))) (jneg (JSNum.finite 10)) =
      false := by
    simp only [jneg, jltB, decide_eq_false_iff_not, not_lt]
    linarith
  have l2 : jltB (JSNum.finite (1 / (x + 1 / 100))) (jneg (JSNum.finite 10)) =
      false := by
    simp only [jneg, jltB, decide_eq_false_iff_not, not_lt]
    linarith
  have jn : jneqB (JSNum.finite 1) (JSNum.finite 1) = false := by decide
  simp only [asymCond, ey, eyl, eyr, s1, s2, l1, l2, jn, JSNum.isFiniteB,
    Bool.not_true, Bool.false_and, Bool.and_false, Bool.true_and,
    Bool.false_or, Bool.or_false, Bool.or_self]

/-- C4: scanning the evaluator of "1/x" for asymptotes over [−10, 10] —
a fixed 2000-step scan (step 0.01) with threshold 10 — returns, after
the `10 × step` deduplication, the single candidate x = 0, which is the
exact location of the pole (and in particular within one scan-step of
it).  Every sample left of −0.01 or right of 0.01 sits in a one-signed
neighbourhood where no method fires, at ±0.01 the non-finite neighbour
blocks all three methods, and at 0 method 1 fires. -/
theorem asymptote_scan_one_over_x :
    parse mathDefault "1/x" = .ok astInv ∧
    scanAsymptotes (funcEval mathDefault astInv) (-10) 10 10 = [0] := by
  refine ⟨rfl, ?_⟩
  have hf : funcEval mathDefault astInv = invEval := funcEval_astInv
  have hstep : ((10 : ℚ) - -10) / 2000 = 1 / 100 := by norm_num
  have hpts : sweepPoints (-10) (1 / 100) 10 =
      (List.range 2001).map (fun (k : ℕ) => (-10 : ℚ) + (k : ℚ) * (1 / 100)) := by
    unfold sweepPoints
    norm_num
    rfl
  have hsplit : List.range 2001 =
      List.range 1000 ++ (1000 :: List.range' 1001 1000 1) := by
    have h := range_split 1000 1001
    norm_num at h
    have h2 : List.range' 1000 1001 1 = 1000 :: List.range' 1001 1000 1 := rfl
    rw [h, h2]
  have hA : ∀ y ∈ (List.range 1000).map
      (fun (k : ℕ) => (-10 : ℚ) + (k : ℚ) * (1 / 100)),
      asymCond invEval (1 / 100) (.finite 10) y = false := by
    intro y hy
    rw [List.mem_map] at hy
    obtain ⟨k, hk, rfl⟩ := hy
    rw [List.mem_range] at hk
    by_cases hk9 : k ≤ 998
    · apply asymCond_invEval_neg
      have hkq : (k : ℚ) ≤ 998 := by exact_mod_cast hk9
      show (-10 : ℚ) + (k : ℚ) * (1 / 100) + 1 / 100 < 0
      linarith
    · have hk999 : k = 999 := by omega
      subst hk999
      show asymCond invEval (1 / 100) (.finite 10)
        ((-10 : ℚ) + ((999 : ℕ) : ℚ) * (1 / 100)) = false
      have e : (-10 : ℚ) + ((999 : ℕ) : ℚ) * (1 / 100) = -(1 / 100) := by
        norm_num
      rw [e]
      decide
  have hB : ∀ y ∈ (List.range' 1001 1000 1).map
      (fun (k : ℕ) => (-10 : ℚ) + (k : ℚ) * (1 / 100)),
      asymCond invEval (1 / 100) (.finite 10) y = false := by
    intro y hy
    rw [List.mem_map] at hy
    obtain ⟨k, hk, rfl⟩ := hy
    rw [List.mem_range'_1] at hk
    by_cases hk1 : k = 1001
    · subst hk1
      show asymCond invEval (1 / 100) (.finite 10)
        ((-10 : ℚ) + ((1001 : ℕ) : ℚ) * (1 / 100)) = false
      have e : (-10 : ℚ) + ((1001 : ℕ) : ℚ) * (1 / 100) = 1 / 100 := by
        norm_num
      rw [e]
      decide
    · apply asymCond_invEval_pos
      have hk2 : 1002 ≤ k := by omega
      have hkq : (1002 : ℚ) ≤ (k : ℚ) := by exact_mod_cast hk2
      show (0 : ℚ) < (-10 : ℚ) + (k : ℚ) * (1 / 100) - 1 / 100
      linarith
  have h0 : (-10 : ℚ) + ((1000 : ℕ) : ℚ) * (1 / 100) = 0 := by norm_num
  have hstep0 : asymStep invEval (1 / 100) (.finite 10) [] 0 = [0] := by decide
  simp only [scanAsymptotes]
  rw [hstep, hpts, hf, hsplit]
  simp only [List.map_append, List.map_cons, List.foldl_append, List.foldl_cons]
  rw [asymFold_skip invEval (1 / 100) (.finite 10) _ [] hA, h0, hstep0,
    asymFold_skip invEval (1 / 100) (.finite 10) _ [0] hB]
  decide

end GraphJs
